import Mathlib

/-!
Shallow embedding of the proSLAM frame-to-frame tracker core
(`src/motion_estimation/base_tracker.cpp`, with `types/world_map.h`).

Real-valued quantities (`real` = double in the source) are modelled as `ℚ`.
External collaborators (OpenCV descriptor norms, `cv::Rodrigues`, the
nonlinear pose optimizer, Eigen vector norms) are modelled as oracle
functions carried in an environment record `Env`; the tracker logic itself
is translated from the source.
-/

namespace ProSlam

/-- 3-vector over ℚ (Eigen `Vector3` / `PointCoordinates`). -/
structure Vec3 where
  x : ℚ
  y : ℚ
  z : ℚ
  deriving DecidableEq, Repr

/-- 3x3 matrix over ℚ (Eigen `Matrix3`). -/
structure Mat3 where
  m00 : ℚ
  m01 : ℚ
  m02 : ℚ
  m10 : ℚ
  m11 : ℚ
  m12 : ℚ
  m20 : ℚ
  m21 : ℚ
  m22 : ℚ
  deriving DecidableEq, Repr

def mat3MulVec (m : Mat3) (v : Vec3) : Vec3 :=
  ⟨m.m00 * v.x + m.m01 * v.y + m.m02 * v.z,
   m.m10 * v.x + m.m11 * v.y + m.m12 * v.z,
   m.m20 * v.x + m.m21 * v.y + m.m22 * v.z⟩

def mat3Mul (a b : Mat3) : Mat3 :=
  ⟨a.m00 * b.m00 + a.m01 * b.m10 + a.m02 * b.m20,
   a.m00 * b.m01 + a.m01 * b.m11 + a.m02 * b.m21,
   a.m00 * b.m02 + a.m01 * b.m12 + a.m02 * b.m22,
   a.m10 * b.m00 + a.m11 * b.m10 + a.m12 * b.m20,
   a.m10 * b.m01 + a.m11 * b.m11 + a.m12 * b.m21,
   a.m10 * b.m02 + a.m11 * b.m12 + a.m12 * b.m22,
   a.m20 * b.m00 + a.m21 * b.m10 + a.m22 * b.m20,
   a.m20 * b.m01 + a.m21 * b.m11 + a.m22 * b.m21,
   a.m20 * b.m02 + a.m21 * b.m12 + a.m22 * b.m22⟩

def mat3Id : Mat3 := ⟨1, 0, 0, 0, 1, 0, 0, 0, 1⟩

def mat3Det (m : Mat3) : ℚ :=
  m.m00 * (m.m11 * m.m22 - m.m12 * m.m21)
  - m.m01 * (m.m10 * m.m22 - m.m12 * m.m20)
  + m.m02 * (m.m10 * m.m21 - m.m11 * m.m20)

/-- Matrix inverse via the adjugate (total on ℚ; coincides with Eigen's
inverse whenever the matrix is invertible, which holds for the rotation
parts of rigid transforms). -/
def mat3Inv (m : Mat3) : Mat3 :=
  let d := mat3Det m
  ⟨(m.m11 * m.m22 - m.m12 * m.m21) / d,
   (m.m02 * m.m21 - m.m01 * m.m22) / d,
   (m.m01 * m.m12 - m.m02 * m.m11) / d,
   (m.m12 * m.m20 - m.m10 * m.m22) / d,
   (m.m00 * m.m22 - m.m02 * m.m20) / d,
   (m.m02 * m.m10 - m.m00 * m.m12) / d,
   (m.m10 * m.m21 - m.m11 * m.m20) / d,
   (m.m01 * m.m20 - m.m00 * m.m21) / d,
   (m.m00 * m.m11 - m.m01 * m.m10) / d⟩

def vec3Add (a b : Vec3) : Vec3 := ⟨a.x + b.x, a.y + b.y, a.z + b.z⟩

def vec3Neg (a : Vec3) : Vec3 := ⟨-a.x, -a.y, -a.z⟩

def vec3Scale (s : ℚ) (a : Vec3) : Vec3 := ⟨s * a.x, s * a.y, s * a.z⟩

/-- Rigid transform `TransformMatrix3D`: rotation/linear part plus
translation, acting as `v ↦ L v + t`. -/
structure Affine3 where
  linear : Mat3
  translation : Vec3
  deriving DecidableEq, Repr

def affineApply (a : Affine3) (v : Vec3) : Vec3 :=
  vec3Add (mat3MulVec a.linear v) a.translation

/-- Composition matching Eigen's `A * B` (apply `B`, then `A`). -/
def affineMul (a b : Affine3) : Affine3 :=
  ⟨mat3Mul a.linear b.linear, vec3Add (mat3MulVec a.linear b.translation) a.translation⟩

/-- `TransformMatrix3D::Identity()`. -/
def affineId : Affine3 := ⟨mat3Id, ⟨0, 0, 0⟩⟩

/-- Eigen `.inverse()` on a transform: `v ↦ L⁻¹ v − L⁻¹ t`. -/
def affineInv (a : Affine3) : Affine3 :=
  let li := mat3Inv a.linear
  ⟨li, vec3Neg (mat3MulVec li a.translation)⟩

/-- `Frame::Status` (only the two values the tracker dispatches on). -/
inductive FrameStatus where
  | Localizing
  | Tracking
  deriving DecidableEq, Repr

/-- Landmark record (`Landmark`): identifier, world coordinates, near flag,
validated flag and the ephemeral currently-tracked flag. -/
structure Landmark where
  id : Nat
  coordinates : Vec3
  isNear : Bool
  validated : Bool
  currentlyTracked : Bool
  deriving DecidableEq, Repr

/-- Scalar payload of a framepoint: stereo left-image coordinates
(row = `imageCoordinatesLeft().y()`, col = `.x()`), left descriptor
(abstracted to an identifier, compared through the oracle descriptor
norm), camera-frame and world-frame 3D coordinates, near flag, landmark
link and track length. -/
structure FPData where
  id : Nat
  imageRow : ℚ
  imageCol : ℚ
  descriptor : Nat
  robotCoords : Vec3
  worldCoords : Vec3
  isNear : Bool
  landmark : Option Landmark
  trackLength : Nat
  deriving DecidableEq, Repr

/-- `FramePoint`: payload plus the (non-owning, here snapshotted) link to
the observation of the same feature in the previous frame. -/
inductive FramePoint where
  | mk (data : FPData) (previous : Option FramePoint) : FramePoint

def FramePoint.data : FramePoint → FPData
  | .mk d _ => d

def FramePoint.previous : FramePoint → Option FramePoint
  | .mk _ p => p

def FramePoint.trackLength (p : FramePoint) : Nat := p.data.trackLength

def FramePoint.landmark (p : FramePoint) : Option Landmark := p.data.landmark

def FramePoint.descriptor (p : FramePoint) : Nat := p.data.descriptor

def FramePoint.imageRow (p : FramePoint) : ℚ := p.data.imageRow

def FramePoint.imageCol (p : FramePoint) : ℚ := p.data.imageCol

def FramePoint.robotCoords (p : FramePoint) : Vec3 := p.data.robotCoords

def FramePoint.worldCoords (p : FramePoint) : Vec3 := p.data.worldCoords

def FramePoint.isNear (p : FramePoint) : Bool := p.data.isNear

/-- `FramePoint::setWorldCoordinates`. -/
def FramePoint.setWorldCoords (p : FramePoint) (v : Vec3) : FramePoint :=
  .mk { p.data with worldCoords := v } p.previous

/-- `FramePoint::setLandmark`. -/
def FramePoint.setLandmark (p : FramePoint) (lm : Option Landmark) : FramePoint :=
  .mk { p.data with landmark := lm } p.previous

/-- Modelled from the spec: `FramePoint::setPrevious` is not under `src/`
(only its caller `BaseTracker::_trackFramepoints` is).  Per the data-model
invariant of the spec it links the predecessor and sets
`track_length = previous.track_length + 1`; the association commit reads
the landmark through the freshly linked point while the spec counts
"tracked points whose predecessor carried a landmark", so the landmark
link is inherited from the predecessor. -/
def FramePoint.setPrevious (p q : FramePoint) : FramePoint :=
  .mk { p.data with trackLength := q.data.trackLength + 1,
                    landmark := q.data.landmark } (some q)

/-- The spec's framepoint track-length invariant. -/
def fpInvariant (p : FramePoint) : Prop :=
  match p.previous with
  | some q => p.trackLength = q.trackLength + 1
  | none => p.trackLength = 1

instance (p : FramePoint) : Decidable (fpInvariant p) := by
  unfold fpInvariant
  cases p.previous <;> exact inferInstance

/-! ## The generator's image grid

`framepoints_in_image()` is a dense `rows × cols` array whose cells hold at
most one candidate framepoint; the tracker consumes it destructively. -/

abbrev Grid : Type := List (List (Option FramePoint))

/-- Read a grid cell; out-of-range (or negative) indices read as empty. -/
def gridGet (g : Grid) (r c : Int) : Option FramePoint :=
  if r < 0 ∨ c < 0 then none
  else ((List.getD g r.toNat []).getD c.toNat none)

/-- Empty a grid cell (`framepointsInImage()[r][c] = 0`); out-of-range
writes are dropped. -/
def gridSetNone (g : Grid) (r c : Int) : Grid :=
  if r < 0 ∨ c < 0 then g
  else List.set g r.toNat ((List.getD g r.toNat []).set c.toNat none)

/-- `FramepointGenerator::clearFramepointsInImage()`. -/
def clearGrid (g : Grid) : Grid :=
  g.map (fun row => row.map (fun _ => none))

/-- `numberOfAvailablePoints()`: occupied-cell count. -/
def countOccupied (g : Grid) : Nat :=
  (g.map (fun row => (row.filter Option.isSome).length)).sum

/-- Integer interval `[a, b)` as a list, in increasing order. -/
def intRange (a b : Int) : List Int :=
  (List.range (b - a).toNat).map (fun (k : Nat) => a + (k : Int))

/-- Row-major enumeration of the cells of `[rs, re) × [cs, ce)` —
the iteration order of the source's nested scan loops. -/
def cellIndices (rs re cs ce : Int) : List (Int × Int) :=
  (intRange rs re).flatMap (fun r => (intRange cs ce).map (fun c => (r, c)))

/-! ## External collaborators and configuration -/

/-- Result record of the pose optimizer (external contract §4.2): pose,
inlier/outlier counts, total error, per-constraint residuals (sentinel
`-1` = skipped) and inlier flags, indexed by framepoint position. -/
structure OptResult where
  pose : Affine3
  inliers : Nat
  outliers : Nat
  totalError : ℚ
  errors : Nat → ℚ
  inlierFlags : Nat → Bool

/-- Tracker configuration plus the oracle functions standing for external
collaborators (descriptor norms, `cv::Rodrigues`-based angle magnitude,
Euclidean vector norm, the pose optimizer, and the spec-modelled
lost-point recovery and landmark update). -/
structure Env where
  rows : Nat
  cols : Nat
  cameraRows : Nat
  cameraCols : Nat
  robotToCamera : Affine3
  cameraMatrix : Mat3
  matchingDistanceTrackingThreshold : ℚ
  minLandmarksToTrack : Nat
  minTrackLengthForLandmarkCreation : Nat
  rangePointTracking : Int
  pixelDistanceTrackingThresholdMin : Int
  pixelDistanceTrackingThresholdMax : Int
  maximumFlowPixelsSquared : Int
  hasOdometry : Bool
  descDist : Nat → Nat → ℚ
  angNorm : Mat3 → ℚ
  vecNorm : Vec3 → ℚ
  optimize : List FramePoint → Affine3 → ℚ → OptResult
  recoverCandidate : FramePoint → Affine3 → Option FramePoint
  landmarkUpdate : Landmark → FramePoint → Vec3

/-! ## Two-stage association: per-point search -/

/-- A running best match of the exhaustive search: Manhattan pixel
distance, grid cell, and the candidate framepoint held there. -/
structure BestMatch where
  dist : Int
  row : Int
  col : Int
  point : FramePoint

/-- `pixel_distance_best`: the search threshold until a candidate wins. -/
def bestDist (thr : Int) : Option BestMatch → Int
  | none => thr
  | some b => b.dist

/-- Manhattan pixel distance of a cell to the projection. -/
def pixelDist (rp cp r c : Int) : Int := |rp - r| + |cp - c|

/-- One iteration of the search loops: an occupied, non-skipped cell
whose descriptor distance is below the generator's matching threshold and
whose pixel distance strictly beats the running best becomes the new
best. -/
def scanStep (env : Env) (g : Grid) (desc : Nat) (rp cp : Int) (thr : Int)
    (skip : Int × Int → Bool) (best : Option BestMatch) (rc : Int × Int) :
    Option BestMatch :=
  match gridGet g rc.1 rc.2 with
  | none => best
  | some fp =>
    if skip rc then best
    else if pixelDist rp cp rc.1 rc.2 < bestDist thr best ∧
            env.descDist desc fp.descriptor < env.matchingDistanceTrackingThreshold then
      some ⟨pixelDist rp cp rc.1 rc.2, rc.1, rc.2, fp⟩
    else best

/-- The exhaustive best-match scan over a cell list (row-major). -/
def scanBest (env : Env) (g : Grid) (desc : Nat) (rp cp : Int) (thr : Int)
    (skip : Int × Int → Bool) (cells : List (Int × Int)) : Option BestMatch :=
  cells.foldl (scanStep env g desc rp cp thr skip) none

/-! ## Projection of previous-frame points (`_getImageCoordinates`) -/

/-- World coordinates used for prediction: the landmark's coordinates when
a validated landmark is attached, the point's own world coordinates
otherwise. -/
def coordsForProjection (p : FramePoint) : Vec3 :=
  match p.landmark with
  | some lm => if lm.validated then lm.coordinates else p.worldCoords
  | none => p.worldCoords

/-- Pinhole projection of one previous-frame point: camera-frame position,
left camera matrix, then normalization by `z` (the source divides the
whole vector by its `z` component). -/
def projectionOf (env : Env) (worldToCamera : Affine3) (p : FramePoint) : Vec3 :=
  let pInCamera := affineApply worldToCamera (coordsForProjection p)
  let pInImage := mat3MulVec env.cameraMatrix pInCamera
  vec3Scale (1 / pInImage.z) pInImage

/-- The source's out-of-FOV test `x < 0 || x > cols || y < 0 || y > rows`. -/
def outOfImage (env : Env) (v : Vec3) : Bool :=
  decide (v.x < 0) || decide ((env.cameraCols : ℚ) < v.x) ||
  decide (v.y < 0) || decide ((env.cameraRows : ℚ) < v.y)

/-- The compacting projection loop of `_getImageCoordinates`: points whose
projection leaves the image are dropped; survivors are kept in order,
index-aligned with their projections. -/
def getImageCoordinatesAux (env : Env) (worldToCamera : Affine3) :
    List FramePoint → List FramePoint × List Vec3
  | [] => ([], [])
  | p :: rest =>
    let proj := projectionOf env worldToCamera p
    let tail := getImageCoordinatesAux env worldToCamera rest
    if outOfImage env proj then tail else (p :: tail.1, proj :: tail.2)

/-- `BaseTracker::_getImageCoordinates`: composes
`world_to_camera = robotToCamera * worldToRobot` and runs the loop. -/
def getImageCoordinates (env : Env) (worldToRobot : Affine3)
    (pts : List FramePoint) : List FramePoint × List Vec3 :=
  getImageCoordinatesAux env (affineMul env.robotToCamera worldToRobot) pts

/-! ## Two-stage association: one previous point (`_trackFramepoints` body) -/

/-- Clamped Stage-1 borders (`row_start_point` …) around the projection. -/
def stage1Cells (env : Env) (rp cp : Int) : List (Int × Int) :=
  cellIndices (max (rp - env.rangePointTracking) 0)
              (min (rp + env.rangePointTracking) (env.rows : Int))
              (max (cp - env.rangePointTracking) 0)
              (min (cp + env.rangePointTracking) (env.cols : Int))

/-- The Stage-2 skip test: the cell lies inside the clamped Stage-1
rectangle, hence was already examined. -/
def inStage1Rect (env : Env) (rp cp : Int) (rc : Int × Int) : Bool :=
  decide (max (rp - env.rangePointTracking) 0 ≤ rc.1) &&
  decide (rc.1 < min (rp + env.rangePointTracking) (env.rows : Int)) &&
  decide (max (cp - env.rangePointTracking) 0 ≤ rc.2) &&
  decide (rc.2 < min (cp + env.rangePointTracking) (env.cols : Int))

/-- Clamped Stage-2 borders (`row_start_region` …): a square of radius
equal to the selected pixel-distance threshold. -/
def stage2Cells (env : Env) (thr rp cp : Int) : List (Int × Int) :=
  cellIndices (max (rp - thr) 0) (min (rp + thr) (env.rows : Int))
              (max (cp - thr) 0) (min (cp + thr) (env.cols : Int))

/-- The squared-pixel-flow consistency gate. -/
def flowConsistent (env : Env) (rPrev cPrev : Int) (b : BestMatch) : Bool :=
  decide ((b.row - rPrev) * (b.row - rPrev) + (b.col - cPrev) * (b.col - cPrev)
            < env.maximumFlowPixelsSquared)

/-- Outcome of processing one previous point: updated grid, the committed
(track-extended) current point if any, whether the point was recorded as
lost, and the search trace (stage results, whether Stage 2 ran). -/
structure TrackStep where
  grid : Grid
  committed : Option FramePoint
  lostPoint : Bool
  stage1 : Option BestMatch
  stage2Ran : Bool
  stage2 : Option BestMatch

/-- Stage 2 plus the commit-or-lose tail, reached when Stage 1 did not
commit. -/
def trackOnePointStage2 (env : Env) (thr : Int) (g : Grid)
    (prev : FramePoint) (rp cp rPrev cPrev : Int) (s1 : Option BestMatch) :
    TrackStep :=
  let s2 := scanBest env g prev.descriptor rp cp thr (inStage1Rect env rp cp)
              (stage2Cells env thr rp cp)
  match s2 with
  | some b =>
    if flowConsistent env rPrev cPrev b then
      { grid := gridSetNone g b.row b.col,
        committed := some (FramePoint.setPrevious b.point prev),
        lostPoint := false, stage1 := s1, stage2Ran := true, stage2 := s2 }
    else
      { grid := g, committed := none, lostPoint := prev.landmark.isSome,
        stage1 := s1, stage2Ran := true, stage2 := s2 }
  | none =>
    { grid := g, committed := none, lostPoint := prev.landmark.isSome,
      stage1 := s1, stage2Ran := true, stage2 := s2 }

/-- Processing of one previous point: Stage-1 vicinity search, the flow
gate, and on failure the Stage-2 regional search. -/
def trackOnePoint (env : Env) (thr : Int) (g : Grid) (prev : FramePoint)
    (proj : Vec3) : TrackStep :=
  let rp : Int := round proj.y
  let cp : Int := round proj.x
  let rPrev : Int := round prev.imageRow
  let cPrev : Int := round prev.imageCol
  let s1 := scanBest env g prev.descriptor rp cp thr (fun _ => false)
              (stage1Cells env rp cp)
  match s1 with
  | some b =>
    if flowConsistent env rPrev cPrev b then
      { grid := gridSetNone g b.row b.col,
        committed := some (FramePoint.setPrevious b.point prev),
        lostPoint := false, stage1 := s1, stage2Ran := false, stage2 := none }
    else trackOnePointStage2 env thr g prev rp cp rPrev cPrev s1
  | none => trackOnePointStage2 env thr g prev rp cp rPrev cPrev s1

/-! ## The association loop (`_trackFramepoints`) -/

/-- Aggregated result of `_trackFramepoints`: the tracked current-frame
points (in association order), the partially consumed grid, near/far
tracked-landmark counters, the lost-point buffer, and the compacted
previous-frame vector with its aligned projections. -/
structure TrackResult where
  points : List FramePoint
  grid : Grid
  nClose : Nat
  nFar : Nat
  lost : List FramePoint
  prevPoints : List FramePoint
  projections : List Vec3

/-- One iteration of the association loop over previous points. -/
def trackLoopStep (env : Env) (thr : Int) (acc : TrackResult)
    (pp : FramePoint × Vec3) : TrackResult :=
  let st := trackOnePoint env thr acc.grid pp.1 pp.2
  match st.committed with
  | some cur =>
    { acc with
      points := acc.points ++ [cur],
      grid := st.grid,
      nClose := acc.nClose + (if cur.landmark.isSome && cur.isNear then 1 else 0),
      nFar := acc.nFar + (if cur.landmark.isSome && !cur.isNear then 1 else 0) }
  | none =>
    { acc with
      grid := st.grid,
      lost := acc.lost ++ (if st.lostPoint then [pp.1] else []) }

/-- `BaseTracker::_trackFramepoints`: project the previous points, select
the pixel-distance threshold from the previous status (relaxed while
localizing), and run the two-stage association over every visible
previous point. -/
def trackFramepoints (env : Env) (statusPrev : FrameStatus)
    (prevFramePoints : List FramePoint) (worldToRobot : Affine3) (g : Grid) :
    TrackResult :=
  let vis := getImageCoordinates env worldToRobot prevFramePoints
  let thr := if statusPrev = FrameStatus.Localizing
             then env.pixelDistanceTrackingThresholdMax
             else env.pixelDistanceTrackingThresholdMin
  (vis.1.zip vis.2).foldl (trackLoopStep env thr)
    { points := [], grid := g, nClose := 0, nFar := 0, lost := [],
      prevPoints := vis.1, projections := vis.2 }

/-! ## Pruning (`_pruneFramepoints`) -/

/-- Retention test of the pruning loop: points without landmarks are
always kept; otherwise the point must have been skipped by the optimizer
(sentinel error `-1`) or be an inlier. -/
def pruneKeep (errors : Nat → ℚ) (inliers : Nat → Bool) (i : Nat)
    (p : FramePoint) : Bool :=
  if p.landmark.isNone then true
  else (errors i == -1) || inliers i

/-- The compacting pruning loop, carrying the running write index. -/
def pruneGo (errors : Nat → ℚ) (inliers : Nat → Bool) :
    Nat → List FramePoint → List FramePoint
  | _, [] => []
  | i, p :: rest =>
    if pruneKeep errors inliers i p then p :: pruneGo errors inliers (i + 1) rest
    else pruneGo errors inliers (i + 1) rest

/-- `BaseTracker::_pruneFramepoints` on the current frame's vector. -/
def pruneFramepoints (errors : Nat → ℚ) (inliers : Nat → Bool)
    (pts : List FramePoint) : List FramePoint :=
  pruneGo errors inliers 0 pts

/-! ## Frames, landmark bookkeeping and the remaining phases -/

/-- `Frame`: pose, framepoint vector, status, and the promotion
threshold `minimumTrackLengthForLandmarkCreation`. -/
structure Frame' where
  robotToWorld : Affine3
  points : List FramePoint
  status : FrameStatus
  minTrackLength : Nat

/-- Modelled from the spec: `Frame::countPoints` is not under `src/`; per
§4.3.2 it counts the frame's framepoints whose track length reaches the
given minimum. -/
def countPoints (pts : List FramePoint) (minLen : Nat) : Nat :=
  (pts.filter (fun p => decide (minLen ≤ p.trackLength))).length

/-- Modelled from the spec: `Frame::updatePoints` is not under `src/`; per
§4.3.3 the non-promoting path "just recompute[s] track metadata", i.e.
refreshes each framepoint's world coordinates from the frame pose. -/
def updatePoints (frameToWorld : Affine3) (pts : List FramePoint) :
    List FramePoint :=
  pts.map (fun p => p.setWorldCoords (affineApply frameToWorld p.robotCoords))

/-- Modelled from the spec: `_recoverPoints` is not under `src/` (only its
call site is).  Per §4.3.6 it reprojects each landmark-bearing lost point
with the just-updated pose and, when a fresh stereo match nearby succeeds
(the descriptor-guided rematch is delegated to the generator's extension
surface, here the oracle `recoverCandidate`), attaches the fresh point to
the current frame with the original landmark link preserved, continuing
the temporal chain from the lost point. -/
def recoverPoints (env : Env) (pose : Affine3) (lost : List FramePoint) :
    List FramePoint :=
  lost.filterMap
    (fun p => (env.recoverCandidate p pose).map
      (fun cand => FramePoint.setPrevious cand p))

/-- Intermediate state of the landmark promotion/update loop. -/
structure UpdateLMState where
  points : List FramePoint
  landmarks : List Landmark
  nextId : Nat
  tracked : List Nat

/-- One iteration of `_updateLandmarks`: refresh world coordinates, skip
immature tracks, create-and-attach a landmark when missing, set the near
flag, update the landmark estimate (`Landmark::update` oracle), and mark
it currently tracked. -/
def updateLandmarksStep (env : Env) (frameToWorld : Affine3) (minLen : Nat)
    (acc : UpdateLMState) (p : FramePoint) : UpdateLMState :=
  let p1 := p.setWorldCoords (affineApply frameToWorld p.robotCoords)
  if p1.trackLength < minLen then { acc with points := acc.points ++ [p1] }
  else
    match p1.landmark with
    | some lm =>
      let lm1 := { lm with isNear := p1.isNear }
      let lm2 := { lm1 with coordinates := env.landmarkUpdate lm1 p1,
                            currentlyTracked := true }
      { points := acc.points ++ [p1.setLandmark (some lm2)],
        landmarks := acc.landmarks.map (fun l => if l.id = lm2.id then lm2 else l),
        nextId := acc.nextId,
        tracked := acc.tracked ++ [lm2.id] }
    | none =>
      let lm0 : Landmark := { id := acc.nextId, coordinates := p1.worldCoords,
                              isNear := p1.isNear, validated := false,
                              currentlyTracked := false }
      let lm2 := { lm0 with coordinates := env.landmarkUpdate lm0 p1,
                            currentlyTracked := true }
      { points := acc.points ++ [p1.setLandmark (some lm2)],
        landmarks := acc.landmarks ++ [lm2],
        nextId := acc.nextId + 1,
        tracked := acc.tracked ++ [lm2.id] }

/-- `BaseTracker::_updateLandmarks` over the frame's points. -/
def updateLandmarks (env : Env) (store : List Landmark) (nextId : Nat)
    (frameToWorld : Affine3) (minLen : Nat) (pts : List FramePoint) :
    UpdateLMState :=
  pts.foldl (updateLandmarksStep env frameToWorld minLen)
    { points := [], landmarks := store, nextId := nextId, tracked := [] }

/-- Result of the new-framepoint sweep. -/
structure AddNewResult where
  newPoints : List FramePoint
  grid : Grid

/-- One cell of the `_addNewFramepoints` sweep: a still-occupied cell
yields a new framepoint (world coordinates refreshed from the current
pose) and is freed. -/
def addNewStep (frameToWorld : Affine3) (acc : AddNewResult)
    (rc : Int × Int) : AddNewResult :=
  match gridGet acc.grid rc.1 rc.2 with
  | some fp =>
    { newPoints := acc.newPoints ++
        [fp.setWorldCoords (affineApply frameToWorld fp.robotCoords)],
      grid := gridSetNone acc.grid rc.1 rc.2 }
  | none => acc

/-- `BaseTracker::_addNewFramepoints`: row-major sweep over the whole
grid. -/
def addNewFramepoints (env : Env) (frameToWorld : Affine3) (g : Grid) :
    AddNewResult :=
  (cellIndices 0 (env.rows : Int) 0 (env.cols : Int)).foldl
    (addNewStep frameToWorld) { newPoints := [], grid := g }

/-! ## Tracker state and `compute()` -/

/-- The dynamic framepoint weight of the Tracking branch:
`1 − (n_far + 7·n_close)/n_tracked`. -/
def weightFramepoint (nFar nClose nTracked : Nat) : ℚ :=
  1 - ((nFar : ℚ) + 7 * (nClose : ℚ)) / (nTracked : ℚ)

/-- Persistent tracker + world-map state across `compute()` calls. -/
structure TrackerState where
  status : FrameStatus
  statusPrev : FrameStatus
  motion : Affine3
  contextPose : Affine3
  prevFrame : Option Frame'
  trackedLandmarks : List Nat
  landmarks : List Landmark
  nextLandmarkId : Nat
  prevOdometry : Affine3

/-- Per-invocation input: the generator's freshly filled grid and the
optional odometry pose. -/
structure FrameInput where
  grid : Grid
  odometry : Affine3

/-- Everything one `compute()` invocation produces or exposes: the new
state (whose `prevFrame` is the finished current frame), the current
frame, the generator grid as left behind, and the observables the source
keeps in locals or members (early return, the weight passed to the
optimizer, the optimizer result, the tracked/near/far counters, the
good-point count of the Localizing state check, and whether landmark
promotion ran). -/
structure ComputeResult where
  state : TrackerState
  frame : Frame'
  grid : Grid
  earlyReturn : Bool
  weightPassed : Option ℚ
  optResult : Option OptResult
  nTracked : Nat
  nClose : Nat
  nFar : Nat
  goodPoints : Option Nat
  didUpdateLandmarks : Bool

/-- Shared epilogue of the non-early paths: append the new framepoints,
stamp the frame status, store the frame as the context's current frame. -/
def finishCompute (env : Env) (frame : Frame') (grid : Grid)
    (status statusPrev : FrameStatus) (motion ctx : Affine3)
    (landmarks : List Landmark) (nextId : Nat) (tracked : List Nat)
    (prevOdom : Affine3) (weightPassed : Option ℚ) (optRes : Option OptResult)
    (nTracked nClose nFar : Nat) (goodPoints : Option Nat)
    (didUpdate : Bool) : ComputeResult :=
  let an := addNewFramepoints env frame.robotToWorld grid
  let frameF : Frame' := { frame with
                           points := frame.points ++ an.newPoints,
                           status := status }
  { state := { status := status, statusPrev := statusPrev, motion := motion,
               contextPose := ctx, prevFrame := some frameF,
               trackedLandmarks := tracked, landmarks := landmarks,
               nextLandmarkId := nextId, prevOdometry := prevOdom },
    frame := frameF, grid := an.grid, earlyReturn := false,
    weightPassed := weightPassed, optResult := optRes,
    nTracked := nTracked, nClose := nClose, nFar := nFar,
    goodPoints := goodPoints, didUpdateLandmarks := didUpdate }

/-- The `Frame::Localizing` case of the status dispatch: optimize on frame
points only (weight 1), accept the pose only above the motion-delta
thresholds, then either promote landmarks and switch to Tracking (enough
good points) or just refresh the points. -/
def computeLocalizing (env : Env) (s : TrackerState) (motion0 : Affine3)
    (prevOdom : Affine3) (frame1 : Frame') (tr : TrackResult) : ComputeResult :=
  let branch :=
    match s.prevFrame with
    | some pf =>
      let opt := env.optimize tr.points frame1.robotToWorld 1
      if 2 * env.minLandmarksToTrack < opt.inliers then
        let delta := affineMul (affineInv pf.robotToWorld) opt.pose
        if (1 : ℚ)/1000 < env.angNorm delta.linear ∨
           (1 : ℚ)/100 < env.vecNorm delta.translation then
          ({ frame1 with robotToWorld := opt.pose }, delta, opt.pose, some opt)
        else
          ({ frame1 with robotToWorld := pf.robotToWorld }, affineId,
           pf.robotToWorld, some opt)
      else (frame1, motion0, frame1.robotToWorld, some opt)
    | none => (frame1, motion0, frame1.robotToWorld, none)
  let frame2 := branch.1
  let good := countPoints frame2.points frame2.minTrackLength
  if env.minLandmarksToTrack < good then
    let ul := updateLandmarks env s.landmarks s.nextLandmarkId
                frame2.robotToWorld frame2.minTrackLength frame2.points
    finishCompute env { frame2 with points := ul.points } tr.grid
      FrameStatus.Tracking s.status branch.2.1 branch.2.2.1 ul.landmarks
      ul.nextId ul.tracked prevOdom none branch.2.2.2
      tr.points.length tr.nClose tr.nFar (some good) true
  else
    let pts := updatePoints frame2.robotToWorld frame2.points
    finishCompute env { frame2 with points := pts } tr.grid
      s.status s.statusPrev branch.2.1 branch.2.2.1 s.landmarks
      s.nextLandmarkId [] prevOdom none branch.2.2.2
      tr.points.length tr.nClose tr.nFar (some good) false

/-- The `Frame::Tracking` case: dynamic framepoint weight, pose
optimization, the insufficient-inlier early return (track loss), the
motion-delta acceptance test, pruning, lost-point recovery and landmark
update.  A Tracking state without a previous frame would dereference null
in the source; reachable states always carry one, and the model returns
the input state unchanged on that artificial branch. -/
def computeTracking (env : Env) (s : TrackerState) (prevOdom : Affine3)
    (frame1 : Frame') (tr : TrackResult) : ComputeResult :=
  match s.prevFrame with
  | none =>
    { state := s, frame := frame1, grid := tr.grid, earlyReturn := true,
      weightPassed := none, optResult := none, nTracked := tr.points.length,
      nClose := tr.nClose, nFar := tr.nFar, goodPoints := none,
      didUpdateLandmarks := false }
  | some pf =>
    let w := max (weightFramepoint tr.nFar tr.nClose tr.points.length)
                 ((1 : ℚ)/10)
    let opt := env.optimize tr.points frame1.robotToWorld w
    let delta := affineMul (affineInv pf.robotToWorld) opt.pose
    if opt.inliers < env.minLandmarksToTrack then
      let frame2 : Frame' := { frame1 with
                               points := [],
                               status := FrameStatus.Localizing,
                               robotToWorld := pf.robotToWorld }
      { state := { status := FrameStatus.Localizing,
                   statusPrev := FrameStatus.Localizing,
                   motion := affineId, contextPose := pf.robotToWorld,
                   prevFrame := some frame2, trackedLandmarks := [],
                   landmarks := s.landmarks, nextLandmarkId := s.nextLandmarkId,
                   prevOdometry := prevOdom },
        frame := frame2, grid := clearGrid tr.grid, earlyReturn := true,
        weightPassed := some w, optResult := some opt,
        nTracked := tr.points.length, nClose := tr.nClose, nFar := tr.nFar,
        goodPoints := none, didUpdateLandmarks := false }
    else
      let accept := (1 : ℚ)/1000 < env.angNorm delta.linear ∨
                    (1 : ℚ)/100 < env.vecNorm delta.translation
      let pose2 := if accept then opt.pose else pf.robotToWorld
      let motion2 := if accept then delta else affineId
      let pruned := pruneFramepoints opt.errors opt.inlierFlags tr.points
      let recovered := recoverPoints env pose2 tr.lost
      let ul := updateLandmarks env s.landmarks s.nextLandmarkId pose2
                  frame1.minTrackLength (pruned ++ recovered)
      finishCompute env { frame1 with robotToWorld := pose2, points := ul.points }
        tr.grid FrameStatus.Tracking FrameStatus.Tracking motion2 pose2
        ul.landmarks ul.nextId ul.tracked prevOdom (some w) (some opt)
        tr.points.length tr.nClose tr.nFar none true

/-- Prologue of `compute()`: reset the currently-tracked flags and the
currently-tracked set (lines 51–54). -/
def computeS0 (s : TrackerState) : TrackerState :=
  { s with
    landmarks := s.landmarks.map
      (fun lm => if lm.id ∈ s.trackedLandmarks
                 then { lm with currentlyTracked := false } else lm),
    trackedLandmarks := [] }

/-- The motion prior: odometric delta when odometry is present (with the
first-frame seed of `_previous_odometry`), the carried-over
constant-velocity value otherwise. -/
def computeMotion0 (env : Env) (s : TrackerState) (inp : FrameInput) : Affine3 :=
  if env.hasOdometry then
    affineMul
      (affineInv (if s.prevFrame.isNone then inp.odometry else s.prevOdometry))
      inp.odometry
  else s.motion

/-- The post-invocation `_previous_odometry`. -/
def computePrevOdom (env : Env) (s : TrackerState) (inp : FrameInput) : Affine3 :=
  if env.hasOdometry then inp.odometry else s.prevOdometry

/-- The context pose after the constant-velocity seeding (lines 66–69). -/
def computeCtxPose0 (env : Env) (s : TrackerState) (inp : FrameInput) : Affine3 :=
  if s.prevFrame.isSome then affineMul s.contextPose (computeMotion0 env s inp)
  else s.contextPose

/-- The freshly created current frame (`_makeFrame`). -/
def computeFrame0 (env : Env) (s : TrackerState) (inp : FrameInput) : Frame' :=
  { robotToWorld := computeCtxPose0 env s inp, points := [],
    status := s.status,
    minTrackLength := env.minTrackLengthForLandmarkCreation }

/-- The association phase of `compute()`: run only when a previous frame
exists. -/
def computeTrackRes (env : Env) (s : TrackerState) (inp : FrameInput) :
    TrackResult :=
  match s.prevFrame with
  | some pf => trackFramepoints env s.statusPrev pf.points
                 (affineInv (computeFrame0 env s inp).robotToWorld) inp.grid
  | none => { points := [], grid := inp.grid, nClose := 0, nFar := 0,
              lost := [], prevPoints := [], projections := [] }

/-- The current frame after association. -/
def computeFrame1 (env : Env) (s : TrackerState) (inp : FrameInput) : Frame' :=
  { computeFrame0 env s inp with points := (computeTrackRes env s inp).points }

/-- `BaseTracker::compute()`: reset the currently-tracked set, derive the
motion prior (odometric or constant-velocity), seed the context pose,
create the frame, run the generator (the input grid), associate against
the previous frame, and dispatch on the tracker status. -/
def compute (env : Env) (s : TrackerState) (inp : FrameInput) : ComputeResult :=
  match s.status with
  | FrameStatus.Localizing =>
    computeLocalizing env (computeS0 s) (computeMotion0 env s inp)
      (computePrevOdom env s inp) (computeFrame1 env s inp)
      (computeTrackRes env s inp)
  | FrameStatus.Tracking =>
    computeTracking env (computeS0 s) (computePrevOdom env s inp)
      (computeFrame1 env s inp) (computeTrackRes env s inp)

/-- Per-frame observables for the determinism property: frame pose,
optimizer inlier count, currently-tracked landmark count. -/
def runTracker (env : Env) (s : TrackerState) :
    List FrameInput → List (Affine3 × Nat × Nat)
  | [] => []
  | i :: rest =>
    let r := compute env s i
    (r.frame.robotToWorld, (r.optResult.map OptResult.inliers).getD 0,
     r.state.trackedLandmarks.length) :: runTracker env r.state rest

/-! ## Theorems: pruning (claim C4) -/

/-- The retention test written as one boolean disjunction. -/
theorem pruneKeep_eq (errors : Nat → ℚ) (inliers : Nat → Bool) (i : Nat)
    (p : FramePoint) :
    pruneKeep errors inliers i p =
      (p.landmark.isNone || ((errors i == -1) || inliers i)) := by
  unfold pruneKeep
  cases h : p.landmark.isNone <;> simp [h]

/-- The compacting loop equals an index-aware filter. -/
theorem pruneGo_eq (errors : Nat → ℚ) (inliers : Nat → Bool) :
    ∀ (pts : List FramePoint) (k : Nat),
      pruneGo errors inliers k pts =
        ((List.enumFrom k pts).filter
          (fun ip => pruneKeep errors inliers ip.1 ip.2)).map Prod.snd := by
  intro pts
  induction pts with
  | nil => intro k; simp [pruneGo]
  | cons p rest ih =>
    intro k
    simp only [pruneGo, List.enumFrom, List.filter_cons]
    by_cases h : pruneKeep errors inliers k p
    · simp [h, ih]
    · simp [h, ih]

/-- Claim C4: after Tracking-branch optimization a framepoint is retained
by `_pruneFramepoints` iff it has no landmark, or its optimizer error is
the sentinel `-1`, or its inlier flag is true; survivors are exactly the
index-filtered points in their original order (a sublist, compacted to the
resized vector), and — for a frame of pairwise-distinct points — any point
with a landmark, a judged error and a false inlier flag is gone. -/
theorem prune_retains_iff (errors : Nat → ℚ) (inliers : Nat → Bool)
    (pts : List FramePoint) :
    pruneFramepoints errors inliers pts =
      (pts.enum.filter (fun ip =>
        ip.2.landmark.isNone || ((errors ip.1 == -1) || inliers ip.1))).map
        Prod.snd
    ∧ (pruneFramepoints errors inliers pts).Sublist pts
    ∧ (pts.Nodup → ∀ (i : Nat) (h : i < pts.length),
        (pts.get ⟨i, h⟩ ∈ pruneFramepoints errors inliers pts ↔
          ((pts.get ⟨i, h⟩).landmark = none ∨ errors i = -1 ∨
            inliers i = true))) := by
  have hmain : pruneFramepoints errors inliers pts =
      (pts.enum.filter (fun ip =>
        ip.2.landmark.isNone || ((errors ip.1 == -1) || inliers ip.1))).map
        Prod.snd := by
    unfold pruneFramepoints
    rw [pruneGo_eq]
    congr 1
    apply List.filter_congr
    intro ip _
    exact pruneKeep_eq errors inliers ip.1 ip.2
  refine ⟨hmain, ?_, ?_⟩
  · rw [hmain]
    have h1 : (pts.enum.filter (fun ip =>
        ip.2.landmark.isNone || ((errors ip.1 == -1) || inliers ip.1))).Sublist
        pts.enum := List.filter_sublist _
    have h2 := h1.map Prod.snd
    rwa [List.enum_map_snd] at h2
  · intro hnd i h
    constructor
    · intro hmem
      rw [hmain] at hmem
      rcases List.mem_map.mp hmem with ⟨⟨j, q⟩, hjq, hq⟩
      rcases List.mem_filter.mp hjq with ⟨hjenum, hcond⟩
      have hget : pts[j]? = some q := List.mem_enum_iff_getElem?.mp hjenum
      have hjlt : j < pts.length := by
        by_contra hge
        rw [List.getElem?_eq_none (Nat.le_of_not_lt hge)] at hget
        exact Option.noConfusion hget
      have hqj : pts.get ⟨j, hjlt⟩ = q := by
        have := List.getElem?_eq_getElem hjlt
        rw [this] at hget
        exact Option.some.inj hget.symm |>.symm
      have hij : i = j := by
        have hinj := List.nodup_iff_injective_get.mp hnd
        have heq : pts.get ⟨i, h⟩ = pts.get ⟨j, hjlt⟩ := by
          rw [hqj]
          simpa using hq.symm
        exact congrArg Fin.val (hinj heq)
      subst hij
      simp only [Bool.or_eq_true, Option.isNone_iff_eq_none, beq_iff_eq] at hcond
      rw [hqj]
      tauto
    · intro hcond
      rw [hmain]
      apply List.mem_map.mpr
      refine ⟨(i, pts.get ⟨i, h⟩), ?_, rfl⟩
      apply List.mem_filter.mpr
      constructor
      · apply List.mem_enum_iff_getElem?.mpr
        simp [List.getElem?_eq_getElem h]
      · simp only [Bool.or_eq_true, Option.isNone_iff_eq_none, beq_iff_eq]
        dsimp
        tauto

/-- A concrete pruning instance: a landmark-free point survives even as a
flagged outlier. -/
def fpPlainW : FramePoint :=
  .mk ⟨0, 0, 0, 0, ⟨0, 0, 1⟩, ⟨0, 0, 1⟩, false, none, 1⟩ none

/-- Witness for claim C4's theorem at a concrete input. -/
theorem prune_retains_iff_witness :
    fpPlainW ∈ pruneFramepoints (fun _ => 0) (fun _ => false) [fpPlainW] := by
  have h := (prune_retains_iff (fun _ => 0) (fun _ => false) [fpPlainW]).2.2
    (List.nodup_singleton _) 0 (by simp)
  exact h.mpr (Or.inl rfl)

/-! ## Theorems: projection of previous points (claim C8) -/

/-- The compacting projection loop is the filter of projectable points
paired with their projections. -/
theorem getImageCoordinatesAux_eq (env : Env) (wtc : Affine3) :
    ∀ pts : List FramePoint,
      getImageCoordinatesAux env wtc pts =
        (pts.filter (fun p => !(outOfImage env (projectionOf env wtc p))),
         (pts.filter
            (fun p => !(outOfImage env (projectionOf env wtc p)))).map
           (projectionOf env wtc)) := by
  intro pts
  induction pts with
  | nil => simp [getImageCoordinatesAux]
  | cons p rest ih =>
    simp only [getImageCoordinatesAux, ih, List.filter_cons]
    by_cases h : outOfImage env (projectionOf env wtc p) <;> simp [h]

/-- Claim C8: `_getImageCoordinates` projects each previous point through
`world_to_camera = robotToCamera * worldToRobot` — using the landmark's
world coordinates when a validated landmark is attached and the point's
own world coordinates otherwise — applies the left camera matrix,
normalizes by `z`, silently drops every point projecting outside the image
bounds, and compacts the previous-frame vector in order to exactly the
projectable points, index-aligned with their projections. -/
theorem getImageCoordinates_spec (env : Env) (wtr : Affine3)
    (pts : List FramePoint) :
    (getImageCoordinates env wtr pts).1 =
      pts.filter (fun p =>
        !(outOfImage env
            (projectionOf env (affineMul env.robotToCamera wtr) p)))
    ∧ (getImageCoordinates env wtr pts).2 =
        (getImageCoordinates env wtr pts).1.map
          (projectionOf env (affineMul env.robotToCamera wtr))
    ∧ (getImageCoordinates env wtr pts).1.length =
        (getImageCoordinates env wtr pts).2.length
    ∧ (getImageCoordinates env wtr pts).1.Sublist pts
    ∧ (∀ p : FramePoint, ∀ lm : Landmark,
        p.landmark = some lm → lm.validated = true →
          coordsForProjection p = lm.coordinates)
    ∧ (∀ p : FramePoint, ∀ lm : Landmark,
        p.landmark = some lm → lm.validated = false →
          coordsForProjection p = p.worldCoords)
    ∧ (∀ p : FramePoint, p.landmark = none →
        coordsForProjection p = p.worldCoords)
    ∧ (∀ p : FramePoint,
        projectionOf env (affineMul env.robotToCamera wtr) p =
          vec3Scale
            (1 / (mat3MulVec env.cameraMatrix
                    (affineApply (affineMul env.robotToCamera wtr)
                      (coordsForProjection p))).z)
            (mat3MulVec env.cameraMatrix
              (affineApply (affineMul env.robotToCamera wtr)
                (coordsForProjection p)))) := by
  have haux := getImageCoordinatesAux_eq env (affineMul env.robotToCamera wtr)
  refine ⟨?_, ?_, ?_, ?_, ?_, ?_, ?_, ?_⟩
  · rw [getImageCoordinates, haux]
  · rw [getImageCoordinates, haux]
  · rw [getImageCoordinates, haux]
    simp
  · rw [getImageCoordinates, haux]
    exact List.filter_sublist _
  · intro p lm hlm hval
    simp [coordsForProjection, hlm, hval]
  · intro p lm hlm hval
    simp [coordsForProjection, hlm, hval]
  · intro p hlm
    simp [coordsForProjection, hlm]
  · intro p
    rfl

/-- Witness for claim C8's theorem (its landmark-case conjuncts carry
hypotheses): a validated landmark redirects the projection source. -/
theorem getImageCoordinates_spec_witness :
    coordsForProjection
        (.mk ⟨0, 0, 0, 0, ⟨0, 0, 1⟩, ⟨5, 5, 5⟩, false,
              some ⟨3, ⟨1, 2, 3⟩, false, true, false⟩, 1⟩ none) =
      ⟨1, 2, 3⟩ := by
  have henv : Env :=
    { rows := 1, cols := 1, cameraRows := 1, cameraCols := 1,
      robotToCamera := affineId, cameraMatrix := mat3Id,
      matchingDistanceTrackingThreshold := 1, minLandmarksToTrack := 0,
      minTrackLengthForLandmarkCreation := 0, rangePointTracking := 1,
      pixelDistanceTrackingThresholdMin := 1,
      pixelDistanceTrackingThresholdMax := 1,
      maximumFlowPixelsSquared := 1, hasOdometry := false,
      descDist := fun _ _ => 0, angNorm := fun _ => 0, vecNorm := fun _ => 0,
      optimize := fun _ a _ =>
        ⟨a, 0, 0, 0, fun _ => 0, fun _ => false⟩,
      recoverCandidate := fun _ _ => none, landmarkUpdate := fun lm _ => lm.coordinates }
  exact (getImageCoordinates_spec henv affineId []).2.2.2.2.1
    (.mk ⟨0, 0, 0, 0, ⟨0, 0, 1⟩, ⟨5, 5, 5⟩, false,
          some ⟨3, ⟨1, 2, 3⟩, false, true, false⟩, 1⟩ none)
    ⟨3, ⟨1, 2, 3⟩, false, true, false⟩ rfl rfl

/-! ## Projection lemmas for the compute epilogue -/

section FinishLemmas

variable (env : Env) (frame : Frame') (grid : Grid) (st stp : FrameStatus)
  (motion ctx : Affine3) (lms : List Landmark) (nid : Nat) (trk : List Nat)
  (po : Affine3) (wp : Option ℚ) (opr : Option OptResult) (nt nc nf : Nat)
  (gp : Option Nat) (du : Bool)

@[simp] theorem finishCompute_state_status :
    (finishCompute env frame grid st stp motion ctx lms nid trk po wp opr
      nt nc nf gp du).state.status = st := rfl

@[simp] theorem finishCompute_state_statusPrev :
    (finishCompute env frame grid st stp motion ctx lms nid trk po wp opr
      nt nc nf gp du).state.statusPrev = stp := rfl

@[simp] theorem finishCompute_state_motion :
    (finishCompute env frame grid st stp motion ctx lms nid trk po wp opr
      nt nc nf gp du).state.motion = motion := rfl

@[simp] theorem finishCompute_state_contextPose :
    (finishCompute env frame grid st stp motion ctx lms nid trk po wp opr
      nt nc nf gp du).state.contextPose = ctx := rfl

@[simp] theorem finishCompute_state_trackedLandmarks :
    (finishCompute env frame grid st stp motion ctx lms nid trk po wp opr
      nt nc nf gp du).state.trackedLandmarks = trk := rfl

@[simp] theorem finishCompute_frame_pose :
    (finishCompute env frame grid st stp motion ctx lms nid trk po wp opr
      nt nc nf gp du).frame.robotToWorld = frame.robotToWorld := rfl

@[simp] theorem finishCompute_frame_status :
    (finishCompute env frame grid st stp motion ctx lms nid trk po wp opr
      nt nc nf gp du).frame.status = st := rfl

@[simp] theorem finishCompute_frame_points :
    (finishCompute env frame grid st stp motion ctx lms nid trk po wp opr
      nt nc nf gp du).frame.points =
      frame.points ++ (addNewFramepoints env frame.robotToWorld grid).newPoints :=
  rfl

@[simp] theorem finishCompute_grid :
    (finishCompute env frame grid st stp motion ctx lms nid trk po wp opr
      nt nc nf gp du).grid =
      (addNewFramepoints env frame.robotToWorld grid).grid := rfl

@[simp] theorem finishCompute_earlyReturn :
    (finishCompute env frame grid st stp motion ctx lms nid trk po wp opr
      nt nc nf gp du).earlyReturn = false := rfl

@[simp] theorem finishCompute_weightPassed :
    (finishCompute env frame grid st stp motion ctx lms nid trk po wp opr
      nt nc nf gp du).weightPassed = wp := rfl

@[simp] theorem finishCompute_optResult :
    (finishCompute env frame grid st stp motion ctx lms nid trk po wp opr
      nt nc nf gp du).optResult = opr := rfl

@[simp] theorem finishCompute_nTracked :
    (finishCompute env frame grid st stp motion ctx lms nid trk po wp opr
      nt nc nf gp du).nTracked = nt := rfl

@[simp] theorem finishCompute_nClose :
    (finishCompute env frame grid st stp motion ctx lms nid trk po wp opr
      nt nc nf gp du).nClose = nc := rfl

@[simp] theorem finishCompute_nFar :
    (finishCompute env frame grid st stp motion ctx lms nid trk po wp opr
      nt nc nf gp du).nFar = nf := rfl

@[simp] theorem finishCompute_goodPoints :
    (finishCompute env frame grid st stp motion ctx lms nid trk po wp opr
      nt nc nf gp du).goodPoints = gp := rfl

@[simp] theorem finishCompute_didUpdateLandmarks :
    (finishCompute env frame grid st stp motion ctx lms nid trk po wp opr
      nt nc nf gp du).didUpdateLandmarks = du := rfl

end FinishLemmas

/-! ## Branch characterization lemmas -/

/-- In the Localizing branch with a previous frame, the optimizer is
invoked once, on the tracked points with weight 1. -/
theorem computeLocalizing_optResult (env : Env) (s : TrackerState)
    (motion0 prevOdom : Affine3) (frame1 : Frame') (tr : TrackResult)
    (pf : Frame') (hpf : s.prevFrame = some pf) :
    (computeLocalizing env s motion0 prevOdom frame1 tr).optResult =
      some (env.optimize tr.points frame1.robotToWorld 1) := by
  unfold computeLocalizing
  rw [hpf]
  dsimp only
  split
  · split <;> split <;> simp
  · split <;> simp

@[simp] theorem computeS0_prevFrame (s : TrackerState) :
    (computeS0 s).prevFrame = s.prevFrame := rfl

@[simp] theorem computeS0_status (s : TrackerState) :
    (computeS0 s).status = s.status := rfl

@[simp] theorem computeS0_statusPrev (s : TrackerState) :
    (computeS0 s).statusPrev = s.statusPrev := rfl

@[simp] theorem computeS0_nextLandmarkId (s : TrackerState) :
    (computeS0 s).nextLandmarkId = s.nextLandmarkId := rfl

/-- `compute` dispatches to the Localizing branch. -/
theorem compute_eq_localizing (env : Env) (s : TrackerState) (inp : FrameInput)
    (h : s.status = FrameStatus.Localizing) :
    compute env s inp =
      computeLocalizing env (computeS0 s) (computeMotion0 env s inp)
        (computePrevOdom env s inp) (computeFrame1 env s inp)
        (computeTrackRes env s inp) := by
  unfold compute
  rw [h]

/-- `compute` dispatches to the Tracking branch. -/
theorem compute_eq_tracking (env : Env) (s : TrackerState) (inp : FrameInput)
    (h : s.status = FrameStatus.Tracking) :
    compute env s inp =
      computeTracking env (computeS0 s) (computePrevOdom env s inp)
        (computeFrame1 env s inp) (computeTrackRes env s inp) := by
  unfold compute
  rw [h]

/-- In the Tracking branch with a previous frame, the optimizer is invoked
once, on the tracked points, with the clamped dynamic weight. -/
theorem computeTracking_optResult (env : Env) (s : TrackerState)
    (prevOdom : Affine3) (frame1 : Frame') (tr : TrackResult) (pf : Frame')
    (hpf : s.prevFrame = some pf) :
    (computeTracking env s prevOdom frame1 tr).optResult =
      some (env.optimize tr.points frame1.robotToWorld
        (max (weightFramepoint tr.nFar tr.nClose tr.points.length)
          ((1 : ℚ)/10))) := by
  unfold computeTracking
  rw [hpf]
  dsimp only
  split <;> simp

/-- In the Tracking branch with a previous frame, the weight passed to the
optimizer is exposed unchanged. -/
theorem computeTracking_weightPassed (env : Env) (s : TrackerState)
    (prevOdom : Affine3) (frame1 : Frame') (tr : TrackResult) (pf : Frame')
    (hpf : s.prevFrame = some pf) :
    (computeTracking env s prevOdom frame1 tr).weightPassed =
      some (max (weightFramepoint tr.nFar tr.nClose tr.points.length)
        ((1 : ℚ)/10)) := by
  unfold computeTracking
  rw [hpf]
  dsimp only
  split <;> simp

/-- The tracked/near/far counters are exposed unchanged by the Tracking
branch. -/
theorem computeTracking_counters (env : Env) (s : TrackerState)
    (prevOdom : Affine3) (frame1 : Frame') (tr : TrackResult) (pf : Frame')
    (hpf : s.prevFrame = some pf) :
    (computeTracking env s prevOdom frame1 tr).nTracked = tr.points.length
    ∧ (computeTracking env s prevOdom frame1 tr).nClose = tr.nClose
    ∧ (computeTracking env s prevOdom frame1 tr).nFar = tr.nFar := by
  unfold computeTracking
  rw [hpf]
  dsimp only
  split <;> simp

/-- Every cell of the grid is empty. -/
def gridEmptyP (g : Grid) : Prop := ∀ row ∈ g, ∀ cell ∈ row, cell = none

theorem gridEmptyP_clearGrid (g : Grid) : gridEmptyP (clearGrid g) := by
  intro row hrow cell hcell
  rcases List.mem_map.mp hrow with ⟨r0, _, hr0⟩
  subst hr0
  rcases List.mem_map.mp hcell with ⟨c0, _, hc0⟩
  exact hc0.symm

/-! ## Theorems: track loss (claim C1) -/

/-- Claim C1: in Tracking state, when the optimizer reports fewer inliers
than `min_landmarks_to_track`, the status becomes Localizing, the frame's
framepoints are released, the generator grid is wholly cleared, the
currently-tracked landmark set is emptied, the frame pose reverts to the
previous frame's pose, the world-map pose is updated to it, the motion
delta resets to identity, and `compute` returns early with no landmark
promotion and no new framepoints appended. -/
theorem tracking_loss_rollback (env : Env) (s : TrackerState)
    (inp : FrameInput) (pf : Frame') (opt : OptResult)
    (hst : s.status = FrameStatus.Tracking)
    (hpf : s.prevFrame = some pf)
    (hopt : (compute env s inp).optResult = some opt)
    (hin : opt.inliers < env.minLandmarksToTrack) :
    (compute env s inp).state.status = FrameStatus.Localizing
    ∧ (compute env s inp).frame.points = []
    ∧ gridEmptyP (compute env s inp).grid
    ∧ (compute env s inp).state.trackedLandmarks = []
    ∧ (compute env s inp).frame.robotToWorld = pf.robotToWorld
    ∧ (compute env s inp).state.contextPose = pf.robotToWorld
    ∧ (compute env s inp).state.motion = affineId
    ∧ (compute env s inp).earlyReturn = true
    ∧ (compute env s inp).didUpdateLandmarks = false := by
  have hce := compute_eq_tracking env s inp hst
  rw [hce] at hopt ⊢
  have hpf0 : (computeS0 s).prevFrame = some pf := by
    rw [computeS0_prevFrame]; exact hpf
  have hoptval := computeTracking_optResult env (computeS0 s)
    (computePrevOdom env s inp) (computeFrame1 env s inp)
    (computeTrackRes env s inp) pf hpf0
  rw [hoptval] at hopt
  have hoe := Option.some.inj hopt
  unfold computeTracking
  rw [hpf0]
  dsimp only
  rw [if_pos (by rw [hoe]; exact hin)]
  exact ⟨rfl, rfl, gridEmptyP_clearGrid _, rfl, rfl, rfl, rfl, rfl, rfl⟩

/-- A concrete environment for witnesses: identity geometry, zero oracle
norms, an optimizer that returns its initial pose with zero inliers. -/
def envW : Env :=
  { rows := 4, cols := 4, cameraRows := 4, cameraCols := 4,
    robotToCamera := affineId, cameraMatrix := mat3Id,
    matchingDistanceTrackingThreshold := 1, minLandmarksToTrack := 1,
    minTrackLengthForLandmarkCreation := 2, rangePointTracking := 2,
    pixelDistanceTrackingThresholdMin := 3,
    pixelDistanceTrackingThresholdMax := 4,
    maximumFlowPixelsSquared := 100, hasOdometry := false,
    descDist := fun _ _ => 0, angNorm := fun _ => 0, vecNorm := fun _ => 0,
    optimize := fun _ p _ => ⟨p, 0, 0, 0, fun _ => 0, fun _ => false⟩,
    recoverCandidate := fun _ _ => none,
    landmarkUpdate := fun lm _ => lm.coordinates }

/-- A previous frame for witnesses. -/
def frameW : Frame' :=
  { robotToWorld := affineId, points := [], status := FrameStatus.Tracking,
    minTrackLength := 2 }

/-- A Tracking-state tracker for witnesses. -/
def stateW : TrackerState :=
  { status := FrameStatus.Tracking, statusPrev := FrameStatus.Tracking,
    motion := affineId, contextPose := affineId, prevFrame := some frameW,
    trackedLandmarks := [], landmarks := [], nextLandmarkId := 0,
    prevOdometry := affineId }

/-- An empty-grid input for witnesses. -/
def inpW : FrameInput := { grid := [], odometry := affineId }

/-- Witness for claim C1's theorem: with a zero-inlier optimization in
Tracking state the tracker rolls back. -/
theorem tracking_loss_rollback_witness :
    (compute envW stateW inpW).state.status = FrameStatus.Localizing
    ∧ (compute envW stateW inpW).state.motion = affineId
    ∧ (compute envW stateW inpW).frame.points = [] := by
  have h := tracking_loss_rollback envW stateW inpW frameW
    ⟨affineMul affineId affineId, 0, 0, 0, fun _ => 0, fun _ => false⟩
    rfl rfl rfl (by decide)
  exact ⟨h.1, h.2.2.2.2.2.2.1, h.2.1⟩

/-! ## Theorems: motion-delta acceptance (claim C9) -/

/-- Claim C9: in both branches, the optimizer's pose is accepted exactly
when the motion delta's angular magnitude strictly exceeds `0.001` rad or
its translational magnitude strictly exceeds `0.01` m; at or below both
thresholds the frame keeps the previous frame's pose and the motion delta
resets to identity (in the Localizing branch provided the optimization was
acceptable, in the Tracking branch provided no track loss occurred). -/
theorem motion_delta_strict (env : Env) (s : TrackerState) (inp : FrameInput)
    (pf : Frame') (opt : OptResult)
    (hpf : s.prevFrame = some pf)
    (hopt : (compute env s inp).optResult = some opt) :
    (s.status = FrameStatus.Localizing →
      2 * env.minLandmarksToTrack < opt.inliers →
      ((((1 : ℚ)/1000 <
            env.angNorm (affineMul (affineInv pf.robotToWorld) opt.pose).linear ∨
          (1 : ℚ)/100 <
            env.vecNorm
              (affineMul (affineInv pf.robotToWorld) opt.pose).translation) →
          (compute env s inp).frame.robotToWorld = opt.pose ∧
          (compute env s inp).state.motion =
            affineMul (affineInv pf.robotToWorld) opt.pose)
        ∧ (¬((1 : ℚ)/1000 <
              env.angNorm (affineMul (affineInv pf.robotToWorld) opt.pose).linear ∨
            (1 : ℚ)/100 <
              env.vecNorm
                (affineMul (affineInv pf.robotToWorld) opt.pose).translation) →
            (compute env s inp).frame.robotToWorld = pf.robotToWorld ∧
            (compute env s inp).state.motion = affineId)))
    ∧ (s.status = FrameStatus.Tracking →
        env.minLandmarksToTrack ≤ opt.inliers →
        ((((1 : ℚ)/1000 <
              env.angNorm (affineMul (affineInv pf.robotToWorld) opt.pose).linear ∨
            (1 : ℚ)/100 <
              env.vecNorm
                (affineMul (affineInv pf.robotToWorld) opt.pose).translation) →
            (compute env s inp).frame.robotToWorld = opt.pose ∧
            (compute env s inp).state.motion =
              affineMul (affineInv pf.robotToWorld) opt.pose)
          ∧ (¬((1 : ℚ)/1000 <
                env.angNorm (affineMul (affineInv pf.robotToWorld) opt.pose).linear ∨
              (1 : ℚ)/100 <
                env.vecNorm
                  (affineMul (affineInv pf.robotToWorld) opt.pose).translation) →
              (compute env s inp).frame.robotToWorld = pf.robotToWorld ∧
              (compute env s inp).state.motion = affineId))) := by
  constructor
  · intro hst hin
    have hce := compute_eq_localizing env s inp hst
    rw [hce] at hopt ⊢
    have hpf0 : (computeS0 s).prevFrame = some pf := by
      rw [computeS0_prevFrame]; exact hpf
    have hoptval := computeLocalizing_optResult env (computeS0 s)
      (computeMotion0 env s inp) (computePrevOdom env s inp)
      (computeFrame1 env s inp) (computeTrackRes env s inp) pf hpf0
    rw [hoptval] at hopt
    have hoe := Option.some.inj hopt
    subst hoe
    unfold computeLocalizing
    rw [hpf0]
    dsimp only
    rw [if_pos hin]
    constructor
    · intro hcond
      rw [if_pos hcond]
      split <;> exact ⟨rfl, rfl⟩
    · intro hcond
      rw [if_neg hcond]
      split <;> exact ⟨rfl, rfl⟩
  · intro hst hin
    have hce := compute_eq_tracking env s inp hst
    rw [hce] at hopt ⊢
    have hpf0 : (computeS0 s).prevFrame = some pf := by
      rw [computeS0_prevFrame]; exact hpf
    have hoptval := computeTracking_optResult env (computeS0 s)
      (computePrevOdom env s inp) (computeFrame1 env s inp)
      (computeTrackRes env s inp) pf hpf0
    rw [hoptval] at hopt
    have hoe := Option.some.inj hopt
    subst hoe
    unfold computeTracking
    rw [hpf0]
    dsimp only
    rw [if_neg (Nat.not_lt.mpr hin)]
    constructor
    · intro hcond
      rw [if_pos hcond, if_pos hcond]
      exact ⟨rfl, rfl⟩
    · intro hcond
      rw [if_neg hcond, if_neg hcond]
      exact ⟨rfl, rfl⟩

/-- The witness environment with a zero inlier requirement. -/
def envW2 : Env := { envW with minLandmarksToTrack := 0 }

/-- Witness for claim C9's theorem: with zero oracle norms the delta is
rejected and the previous pose is retained in the Tracking branch. -/
theorem motion_delta_strict_witness :
    (compute envW2 stateW inpW).frame.robotToWorld = frameW.robotToWorld
    ∧ (compute envW2 stateW inpW).state.motion = affineId := by
  have h := (motion_delta_strict envW2 stateW inpW frameW
    ⟨affineMul affineId affineId, 0, 0, 0, fun _ => 0, fun _ => false⟩
    rfl rfl).2 rfl (by decide)
  have h1 : envW2.angNorm = fun _ => 0 := rfl
  have h2 : envW2.vecNorm = fun _ => 0 := rfl
  refine h.2 ?_
  rw [h1, h2]
  norm_num

/-! ## Theorems: the dynamic framepoint weight (claim C5) -/

/-- A far (non-near), non-validated landmark. -/
def lmC5 : Landmark := ⟨0, ⟨0, 0, 1⟩, false, false, false⟩

/-- Previous-frame points: two points on the image row 0, only the first
carrying (far) landmark `lmC5`. -/
def prevPtC5 (i : Nat) : FramePoint :=
  .mk ⟨i, 0, (i : ℚ), 0, ⟨(i : ℚ), 0, 1⟩, ⟨(i : ℚ), 0, 1⟩, false,
       if i = 0 then some lmC5 else none, 1⟩ none

/-- Fresh generator candidates at the matching grid cells. -/
def gridPtC5 (i : Nat) : FramePoint :=
  .mk ⟨100 + i, 0, (i : ℚ), 0, ⟨(i : ℚ), 0, 1⟩, ⟨(i : ℚ), 0, 1⟩, false,
       none, 1⟩ none

def prevFrameC5 : Frame' :=
  { robotToWorld := affineId, points := [prevPtC5 0, prevPtC5 1],
    status := FrameStatus.Tracking, minTrackLength := 5 }

def envC5 : Env :=
  { rows := 1, cols := 2, cameraRows := 2, cameraCols := 2,
    robotToCamera := affineId, cameraMatrix := mat3Id,
    matchingDistanceTrackingThreshold := 1, minLandmarksToTrack := 0,
    minTrackLengthForLandmarkCreation := 5, rangePointTracking := 2,
    pixelDistanceTrackingThresholdMin := 4,
    pixelDistanceTrackingThresholdMax := 4,
    maximumFlowPixelsSquared := 100, hasOdometry := false,
    descDist := fun _ _ => 0, angNorm := fun _ => 0, vecNorm := fun _ => 0,
    optimize := fun _ p _ => ⟨p, 0, 0, 0, fun _ => 0, fun _ => false⟩,
    recoverCandidate := fun _ _ => none,
    landmarkUpdate := fun lm _ => lm.coordinates }

def stateC5 : TrackerState :=
  { status := FrameStatus.Tracking, statusPrev := FrameStatus.Tracking,
    motion := affineId, contextPose := affineId,
    prevFrame := some prevFrameC5, trackedLandmarks := [],
    landmarks := [lmC5], nextLandmarkId := 1, prevOdometry := affineId }

def inpC5 : FrameInput :=
  { grid := [[some (gridPtC5 0), some (gridPtC5 1)]],
    odometry := affineId }

section ConcreteEval

attribute [local semireducible] Rat.mul Rat.add Rat.sub Rat.inv

/-- Counterexample to claim C5 as stated: a Tracking-branch entry in which
every tracked landmark is classified far (`n_close = 0`, `n_far = 1`), yet
the weight passed to the optimizer is `1/2`, not the claimed clamp value
`0.1` — the second tracked point carries no landmark at all. -/
theorem weight_allfar_not_clamped :
    (compute envC5 stateC5 inpC5).nClose = 0
    ∧ (compute envC5 stateC5 inpC5).nFar = 1
    ∧ (compute envC5 stateC5 inpC5).nTracked = 2
    ∧ (compute envC5 stateC5 inpC5).weightPassed = some ((1 : ℚ)/2)
    ∧ ((1 : ℚ)/2 ≠ (1 : ℚ)/10) := by
  refine ⟨?_, ?_, ?_, ?_, by norm_num⟩ <;> decide

end ConcreteEval

/-- Claim C5 as amended: on a Tracking-branch entry the weight passed to
the optimizer is `max (1 − (n_far + 7·n_close)/n_tracked) 0.1` for the
association counters of this invocation; the asserted bound `w ≤ 1` holds
for all counter values (in exact rational arithmetic); and when every
tracked point carries a landmark and none is near
(`n_far = n_tracked > 0`, `n_close = 0`) the weight passed is exactly
`0.1`. -/
theorem weight_clamp_spec (env : Env) (s : TrackerState) (inp : FrameInput)
    (pf : Frame') (hst : s.status = FrameStatus.Tracking)
    (hpf : s.prevFrame = some pf) :
    (compute env s inp).weightPassed =
      some (max (weightFramepoint (compute env s inp).nFar
                  (compute env s inp).nClose (compute env s inp).nTracked)
             ((1 : ℚ)/10))
    ∧ (∀ nf nc nt : Nat, weightFramepoint nf nc nt ≤ 1)
    ∧ (∀ nt : Nat, 0 < nt →
        max (weightFramepoint nt 0 nt) ((1 : ℚ)/10) = (1 : ℚ)/10) := by
  have hce := compute_eq_tracking env s inp hst
  have hpf0 : (computeS0 s).prevFrame = some pf := by
    rw [computeS0_prevFrame]; exact hpf
  refine ⟨?_, ?_, ?_⟩
  · rw [hce]
    have hc := computeTracking_counters env (computeS0 s)
      (computePrevOdom env s inp) (computeFrame1 env s inp)
      (computeTrackRes env s inp) pf hpf0
    rw [hc.1, hc.2.1, hc.2.2]
    exact computeTracking_weightPassed env (computeS0 s)
      (computePrevOdom env s inp) (computeFrame1 env s inp)
      (computeTrackRes env s inp) pf hpf0
  · intro nf nc nt
    unfold weightFramepoint
    have hnum : (0 : ℚ) ≤ (nf : ℚ) + 7 * (nc : ℚ) := by positivity
    have hden : (0 : ℚ) ≤ (nt : ℚ) := by positivity
    have := div_nonneg hnum hden
    linarith
  · intro nt hnt
    unfold weightFramepoint
    have hne : (nt : ℚ) ≠ 0 := by
      exact_mod_cast Nat.pos_iff_ne_zero.mp hnt
    rw [Nat.cast_zero]
    have : ((nt : ℚ) + 7 * 0) / (nt : ℚ) = 1 := by
      rw [mul_zero, add_zero, div_self hne]
    rw [this]
    norm_num

/-- Witness for the amended claim C5 theorem at concrete inputs. -/
theorem weight_clamp_spec_witness :
    (compute envW stateW inpW).weightPassed =
      some (max (weightFramepoint 0 0 0) ((1 : ℚ)/10))
    ∧ max (weightFramepoint 3 0 3) ((1 : ℚ)/10) = (1 : ℚ)/10 := by
  have h := weight_clamp_spec envW stateW inpW frameW rfl rfl
  constructor
  · exact h.1.trans (by rfl)
  · exact h.2.2 3 (by norm_num)

/-! ## Theorems: the Localizing state check (claim C2) -/

/-- In the Localizing branch the state check depends only on the good-point
count: the status switches to Tracking and landmark promotion runs exactly
when that count exceeds `min_landmarks_to_track` — independently of the
optimization's outcome. -/
theorem computeLocalizing_spec (env : Env) (s : TrackerState)
    (motion0 prevOdom : Affine3) (frame1 : Frame') (tr : TrackResult)
    (hL : s.status = FrameStatus.Localizing) :
    (computeLocalizing env s motion0 prevOdom frame1 tr).goodPoints =
      some (countPoints frame1.points frame1.minTrackLength)
    ∧ ((computeLocalizing env s motion0 prevOdom frame1 tr).state.status =
          FrameStatus.Tracking ↔
        env.minLandmarksToTrack <
          countPoints frame1.points frame1.minTrackLength)
    ∧ ((computeLocalizing env s motion0 prevOdom frame1 tr).didUpdateLandmarks =
          true ↔
        env.minLandmarksToTrack <
          countPoints frame1.points frame1.minTrackLength) := by
  unfold computeLocalizing
  rcases hpf : s.prevFrame with _ | pf <;> dsimp only
  · split
    · simp_all
    · simp_all
  · split
    · split
      · split
        · simp_all
        · simp_all
      · split
        · simp_all
        · simp_all
    · split
      · simp_all
      · simp_all

/-- Claim C2 as amended: in the Localizing state, the tracker transitions
to Tracking exactly when the number of framepoints of the current frame
whose track length reaches the frame's minimum track length for landmark
creation exceeds `min_landmarks_to_track` — regardless of the
optimization's success (the state check runs even when the optimizer fell
short of `2·min_landmarks_to_track` inliers, and even without a previous
frame); the transition is exactly when landmark promotion runs, and
without a previous frame the count is zero, so no transition happens. -/
theorem localizing_to_tracking_iff (env : Env) (s : TrackerState)
    (inp : FrameInput) (hst : s.status = FrameStatus.Localizing) :
    (compute env s inp).goodPoints =
      some (countPoints (computeTrackRes env s inp).points
        env.minTrackLengthForLandmarkCreation)
    ∧ ((compute env s inp).state.status = FrameStatus.Tracking ↔
        env.minLandmarksToTrack <
          countPoints (computeTrackRes env s inp).points
            env.minTrackLengthForLandmarkCreation)
    ∧ ((compute env s inp).didUpdateLandmarks = true ↔
        env.minLandmarksToTrack <
          countPoints (computeTrackRes env s inp).points
            env.minTrackLengthForLandmarkCreation)
    ∧ (s.prevFrame = none →
        countPoints (computeTrackRes env s inp).points
          env.minTrackLengthForLandmarkCreation = 0) := by
  have hce := compute_eq_localizing env s inp hst
  rw [hce]
  have hs0 : (computeS0 s).status = FrameStatus.Localizing := by
    rw [computeS0_status]; exact hst
  have h := computeLocalizing_spec env (computeS0 s) (computeMotion0 env s inp)
    (computePrevOdom env s inp) (computeFrame1 env s inp)
    (computeTrackRes env s inp) hs0
  refine ⟨h.1, h.2.1, h.2.2, ?_⟩
  intro hnone
  unfold computeTrackRes
  rw [hnone]
  rfl

/-- Environment and Localizing state for the claim C2 counterexample
run. -/
def envC2 : Env := { envC5 with minTrackLengthForLandmarkCreation := 2 }

def stateC2 : TrackerState :=
  { stateC5 with status := FrameStatus.Localizing,
                 statusPrev := FrameStatus.Localizing }

section ConcreteEvalC2

attribute [local semireducible] Rat.mul Rat.add Rat.sub Rat.inv

/-- Counterexample to claim C2 as stated: a Localizing invocation whose
optimization is not successful (0 inliers, not exceeding
`2·min_landmarks_to_track = 0`) still transitions to Tracking and promotes
landmarks, because the good-point count (2) exceeds
`min_landmarks_to_track = 0`. -/
theorem localizing_transition_despite_failed_opt :
    (compute envC2 stateC2 inpC5).state.status = FrameStatus.Tracking
    ∧ (compute envC2 stateC2 inpC5).didUpdateLandmarks = true
    ∧ (compute envC2 stateC2 inpC5).optResult.map OptResult.inliers = some 0
    ∧ 2 * envC2.minLandmarksToTrack = 0 := by
  refine ⟨?_, ?_, ?_, rfl⟩ <;> decide

end ConcreteEvalC2

/-- A fresh Localizing state for the claim C2 witness. -/
def stateWL : TrackerState :=
  { stateW with status := FrameStatus.Localizing,
                statusPrev := FrameStatus.Localizing }

/-- Witness for the amended claim C2 theorem at a concrete input. -/
theorem localizing_to_tracking_iff_witness :
    (compute envW stateWL inpW).goodPoints =
      some (countPoints (computeTrackRes envW stateWL inpW).points
        envW.minTrackLengthForLandmarkCreation) :=
  (localizing_to_tracking_iff envW stateWL inpW rfl).1

/-! ## Theorems: the two-stage search (claim C3) -/

theorem mem_intRange {a b k : Int} : k ∈ intRange a b ↔ a ≤ k ∧ k < b := by
  unfold intRange
  constructor
  · intro h
    rcases List.mem_map.mp h with ⟨j, hj, rfl⟩
    rw [List.mem_range] at hj
    omega
  · rintro ⟨h1, h2⟩
    refine List.mem_map.mpr ⟨(k - a).toNat, ?_, ?_⟩
    · rw [List.mem_range]
      omega
    · omega

theorem mem_cellIndices {rs re cs ce : Int} {rc : Int × Int} :
    rc ∈ cellIndices rs re cs ce ↔
      (rs ≤ rc.1 ∧ rc.1 < re) ∧ (cs ≤ rc.2 ∧ rc.2 < ce) := by
  unfold cellIndices
  simp only [List.mem_flatMap, List.mem_map, mem_intRange]
  constructor
  · rintro ⟨r, hr, c, hc, rfl⟩
    exact ⟨hr, hc⟩
  · rintro ⟨⟨h1, h2⟩, ⟨h3, h4⟩⟩
    exact ⟨rc.1, ⟨h1, h2⟩, rc.2, ⟨h3, h4⟩, rfl⟩

/-- The Stage-2 skip test holds exactly on the cells Stage 1 examined. -/
theorem inStage1Rect_iff_mem (env : Env) (rp cp : Int) (rc : Int × Int) :
    inStage1Rect env rp cp rc = true ↔ rc ∈ stage1Cells env rp cp := by
  unfold inStage1Rect stage1Cells
  rw [mem_cellIndices]
  simp only [Bool.and_eq_true, decide_eq_true_eq]
  tauto

/-- Every leaf of the Stage-2 tail records that Stage 2 ran. -/
theorem trackOnePointStage2_ran (env : Env) (thr : Int) (g : Grid)
    (prev : FramePoint) (rp cp rPrev cPrev : Int) (s1 : Option BestMatch) :
    (trackOnePointStage2 env thr g prev rp cp rPrev cPrev s1).stage2Ran
      = true := by
  unfold trackOnePointStage2
  dsimp only
  split
  · split <;> rfl
  · rfl

/-- The Stage-2 tail exposes exactly the skipping regional scan result. -/
theorem trackOnePointStage2_stage2 (env : Env) (thr : Int) (g : Grid)
    (prev : FramePoint) (rp cp rPrev cPrev : Int) (s1 : Option BestMatch) :
    (trackOnePointStage2 env thr g prev rp cp rPrev cPrev s1).stage2 =
      scanBest env g prev.descriptor rp cp thr (inStage1Rect env rp cp)
        (stage2Cells env thr rp cp) := by
  unfold trackOnePointStage2
  dsimp only
  rcases hs2 : scanBest env g prev.descriptor rp cp thr
    (inStage1Rect env rp cp) (stage2Cells env thr rp cp) with _ | b <;>
    dsimp only
  all_goals first
  | rfl
  | (split <;> rfl)

/-- Claim C3 as amended: for each previous point, the Stage-2 regional
search runs unless Stage 1 found a match that also passed the
flow-consistency gate (in particular it runs when Stage 1 found a match
whose flow was rejected); when it runs it is the same best-match scan —
same candidate criterion and Manhattan cost — over the square of radius
equal to the selected threshold, skipping exactly the cells Stage 1
examined. -/
theorem stage2_regional_spec (env : Env) (thr : Int) (g : Grid)
    (prev : FramePoint) (proj : Vec3) :
    ((trackOnePoint env thr g prev proj).stage2Ran = true ↔
      ¬ ∃ b : BestMatch,
          scanBest env g prev.descriptor (round proj.y) (round proj.x) thr
              (fun _ => false)
              (stage1Cells env (round proj.y) (round proj.x)) = some b
          ∧ flowConsistent env (round prev.imageRow) (round prev.imageCol) b
              = true)
    ∧ ((trackOnePoint env thr g prev proj).stage2Ran = true →
        (trackOnePoint env thr g prev proj).stage2 =
          scanBest env g prev.descriptor (round proj.y) (round proj.x) thr
            (inStage1Rect env (round proj.y) (round proj.x))
            (stage2Cells env thr (round proj.y) (round proj.x)))
    ∧ (∀ rc : Int × Int,
        inStage1Rect env (round proj.y) (round proj.x) rc = true ↔
          rc ∈ stage1Cells env (round proj.y) (round proj.x)) := by
  refine ⟨?_, ?_, fun rc => inStage1Rect_iff_mem env _ _ rc⟩
  · unfold trackOnePoint
    dsimp only
    rcases hs1 : scanBest env g prev.descriptor (round proj.y) (round proj.x)
      thr (fun _ => false) (stage1Cells env (round proj.y) (round proj.x))
      with _ | b <;> dsimp only
    · simp [trackOnePointStage2_ran]
    · by_cases hfl : flowConsistent env (round prev.imageRow)
        (round prev.imageCol) b = true
      · rw [if_pos hfl]
        dsimp only
        constructor
        · intro h
          exact absurd h (by simp)
        · intro hne
          exact absurd ⟨b, rfl, hfl⟩ hne
      · rw [if_neg hfl]
        simp only [trackOnePointStage2_ran, true_iff]
        rintro ⟨b', hb', hfl'⟩
        cases Option.some.inj hb'
        exact hfl hfl'
  · unfold trackOnePoint
    dsimp only
    rcases hs1 : scanBest env g prev.descriptor (round proj.y) (round proj.x)
      thr (fun _ => false) (stage1Cells env (round proj.y) (round proj.x))
      with _ | b <;> dsimp only
    · intro _
      exact trackOnePointStage2_stage2 env thr g prev _ _ _ _ _
    · by_cases hfl : flowConsistent env (round prev.imageRow)
        (round prev.imageCol) b = true
      · rw [if_pos hfl]
        dsimp only
        intro h
        exact absurd h (by simp)
      · rw [if_neg hfl]
        intro _
        exact trackOnePointStage2_stage2 env thr g prev _ _ _ _ _

/-- The claim C3 counterexample data: one occupied cell at `(0,0)`, a
projection at `(0,0)`, and a previous point whose image position makes the
flow gate reject the Stage-1 match. -/
def lmFreePtC3 : FramePoint :=
  .mk ⟨0, 0, 1, 0, ⟨0, 0, 1⟩, ⟨0, 0, 1⟩, false, none, 1⟩ none

def gridPtC3 : FramePoint :=
  .mk ⟨1, 0, 0, 0, ⟨0, 0, 1⟩, ⟨0, 0, 1⟩, false, none, 1⟩ none

def envC3 : Env :=
  { envC5 with rows := 1, cols := 1, maximumFlowPixelsSquared := 1 }

section ConcreteEvalC3

attribute [local semireducible] Rat.mul Rat.add Rat.sub Rat.inv

/-- Counterexample to claim C3 as stated: Stage 1 finds a match
(`stage1.isSome`), yet the Stage-2 regional search still runs, because the
flow-consistency gate rejected the Stage-1 match. -/
theorem stage2_runs_despite_stage1_match :
    (trackOnePoint envC3 4 [[some gridPtC3]] lmFreePtC3 ⟨0, 0, 1⟩).stage1.isSome
      = true
    ∧ (trackOnePoint envC3 4 [[some gridPtC3]] lmFreePtC3 ⟨0, 0, 1⟩).stage2Ran
      = true := by
  exact ⟨by decide, by decide⟩

/-- Witness for the amended claim C3 theorem: on the counterexample data
the Stage-2 result is exactly the skipping regional scan. -/
theorem stage2_regional_spec_witness :
    (trackOnePoint envC3 4 [[some gridPtC3]] lmFreePtC3 ⟨0, 0, 1⟩).stage2 =
      scanBest envC3 [[some gridPtC3]] lmFreePtC3.descriptor
        (round (0 : ℚ)) (round (0 : ℚ)) 4
        (inStage1Rect envC3 (round (0 : ℚ)) (round (0 : ℚ)))
        (stage2Cells envC3 4 (round (0 : ℚ)) (round (0 : ℚ))) :=
  (stage2_regional_spec envC3 4 [[some gridPtC3]] lmFreePtC3 ⟨0, 0, 1⟩).2.1
    (by decide)

end ConcreteEvalC3

/-! ## Grid lemmas: destructive consumption -/

/-- Emptying a cell empties that cell. -/
theorem gridGet_setNone_self (g : Grid) (r c : Int) :
    gridGet (gridSetNone g r c) r c = none := by
  by_cases h : r < 0 ∨ c < 0
  · simp [gridGet, gridSetNone, h]
  · simp only [gridGet, gridSetNone, if_neg h]
    by_cases hr : r.toNat < g.length
    · have hrow : (List.set g r.toNat
          ((g.getD r.toNat []).set c.toNat none)).getD r.toNat [] =
          (g.getD r.toNat []).set c.toNat none := by
        rw [List.getD_eq_getElem?_getD (List.set g r.toNat
              ((g.getD r.toNat []).set c.toNat none)) r.toNat [],
            List.getElem?_set, if_pos rfl, if_pos hr]
        rfl
      rw [hrow,
          List.getD_eq_getElem?_getD ((g.getD r.toNat []).set c.toNat none)
            c.toNat none,
          List.getElem?_set, if_pos rfl]
      split <;> rfl
    · rw [List.set_eq_of_length_le (Nat.le_of_not_lt hr)]
      have hnil : g.getD r.toNat [] = [] := by
        rw [List.getD_eq_getElem?_getD g r.toNat [],
            List.getElem?_eq_none (Nat.le_of_not_lt hr)]
        rfl
      rw [hnil]
      rfl

/-- Emptying a cell either empties a queried cell or leaves it as it
was. -/
theorem gridGet_setNone_cases (g : Grid) (r c r' c' : Int) :
    gridGet (gridSetNone g r c) r' c' = none ∨
    gridGet (gridSetNone g r c) r' c' = gridGet g r' c' := by
  by_cases h : r < 0 ∨ c < 0
  · right
    simp [gridSetNone, h]
  by_cases h' : r' < 0 ∨ c' < 0
  · left
    simp [gridGet, h']
  simp only [gridGet, gridSetNone, if_neg h, if_neg h']
  by_cases hrr : r.toNat = r'.toNat
  · by_cases hr : r.toNat < g.length
    · have hrow : (List.set g r.toNat
          ((g.getD r.toNat []).set c.toNat none)).getD r'.toNat [] =
          (g.getD r.toNat []).set c.toNat none := by
        rw [List.getD_eq_getElem?_getD (List.set g r.toNat
              ((g.getD r.toNat []).set c.toNat none)) r'.toNat [],
            List.getElem?_set, if_pos hrr, if_pos hr]
        rfl
      rw [hrow]
      by_cases hcc : c.toNat = c'.toNat
      · left
        rw [List.getD_eq_getElem?_getD ((g.getD r.toNat []).set c.toNat none)
              c'.toNat none,
            List.getElem?_set, if_pos hcc]
        split <;> rfl
      · right
        rw [List.getD_eq_getElem?_getD ((g.getD r.toNat []).set c.toNat none)
              c'.toNat none,
            List.getElem?_set, if_neg hcc,
            ← List.getD_eq_getElem?_getD (g.getD r.toNat []) c'.toNat none,
            hrr]
    · right
      rw [List.set_eq_of_length_le (Nat.le_of_not_lt hr)]
  · right
    have hrow : (List.set g r.toNat
        ((g.getD r.toNat []).set c.toNat none)).getD r'.toNat [] =
        g.getD r'.toNat [] := by
      rw [List.getD_eq_getElem?_getD (List.set g r.toNat
            ((g.getD r.toNat []).set c.toNat none)) r'.toNat [],
          List.getElem?_set, if_neg hrr,
          ← List.getD_eq_getElem?_getD g r'.toNat []]
    rw [hrow]

/-- `gridSetNone` preserves the number of rows. -/
theorem gridSetNone_length (g : Grid) (r c : Int) :
    (gridSetNone g r c).length = g.length := by
  unfold gridSetNone
  split
  · rfl
  · exact List.length_set g _ _

/-- Every row of `gridSetNone g r c` has the length of some row of `g`. -/
theorem gridSetNone_rows (g : Grid) (r c : Int) :
    ∀ row ∈ gridSetNone g r c, ∃ row0 ∈ g, row.length = row0.length := by
  intro row hrow
  unfold gridSetNone at hrow
  split at hrow
  · exact ⟨row, hrow, rfl⟩
  · by_cases hr : r.toNat < g.length
    · rcases List.mem_or_eq_of_mem_set hrow with hm | hm
      · exact ⟨row, hm, rfl⟩
      · refine ⟨g.getD r.toNat [], ?_, ?_⟩
        · rw [List.getD_eq_getElem?_getD, List.getElem?_eq_getElem hr]
          exact List.getElem_mem hr
        · rw [hm]
          exact List.length_set _ _ _
    · rw [List.set_eq_of_length_le (Nat.le_of_not_lt hr)] at hrow
      exact ⟨row, hrow, rfl⟩

/-! ## Fold helpers -/

theorem foldl_stable {α β : Type} (f : β → α → β) (P : β → Prop)
    (hstep : ∀ b a, P b → P (f b a)) :
    ∀ (l : List α) (b : β), P b → P (l.foldl f b) := by
  intro l
  induction l with
  | nil => intro b h; exact h
  | cons x xs ih => intro b h; exact ih (f b x) (hstep b x h)

theorem foldl_establish {α β : Type} (f : β → α → β) (P : α → β → Prop)
    (hstep : ∀ b a a', P a b → P a (f b a'))
    (hself : ∀ b a, P a (f b a)) :
    ∀ (l : List α) (b : β) (a : α), a ∈ l → P a (l.foldl f b) := by
  intro l
  induction l with
  | nil => intro b a h; cases h
  | cons x xs ih =>
    intro b a h
    rcases List.mem_cons.mp h with rfl | h'
    · exact foldl_stable f (P a) (fun b' a' => hstep b' a a') xs (f b a)
        (hself b a)
    · exact ih (f b x) a h'

/-! ## Structural grid facts about the association and the sweep -/

/-- The Stage-2 tail leaves the grid unchanged or empties one cell. -/
theorem trackOnePointStage2_grid (env : Env) (thr : Int) (g : Grid)
    (prev : FramePoint) (rp cp rPrev cPrev : Int) (s1 : Option BestMatch) :
    (trackOnePointStage2 env thr g prev rp cp rPrev cPrev s1).grid = g ∨
    ∃ r c, (trackOnePointStage2 env thr g prev rp cp rPrev cPrev s1).grid =
      gridSetNone g r c := by
  unfold trackOnePointStage2
  dsimp only
  rcases hs2 : scanBest env g prev.descriptor rp cp thr
    (inStage1Rect env rp cp) (stage2Cells env thr rp cp) with _ | b <;>
    dsimp only
  · left; rfl
  · split
    · right; exact ⟨b.row, b.col, rfl⟩
    · left; rfl

/-- Processing one previous point leaves the grid unchanged or empties one
cell. -/
theorem trackOnePoint_grid (env : Env) (thr : Int) (g : Grid)
    (prev : FramePoint) (proj : Vec3) :
    (trackOnePoint env thr g prev proj).grid = g ∨
    ∃ r c, (trackOnePoint env thr g prev proj).grid = gridSetNone g r c := by
  unfold trackOnePoint
  dsimp only
  rcases hs1 : scanBest env g prev.descriptor (round proj.y) (round proj.x)
    thr (fun _ => false) (stage1Cells env (round proj.y) (round proj.x))
    with _ | b <;> dsimp only
  · exact trackOnePointStage2_grid env thr g prev _ _ _ _ _
  · split
    · right; exact ⟨b.row, b.col, rfl⟩
    · exact trackOnePointStage2_grid env thr g prev _ _ _ _ _

/-- Every occupied cell satisfies `P`. -/
def GridAll (P : FramePoint → Prop) (g : Grid) : Prop :=
  ∀ r c : Int, ∀ fp : FramePoint, gridGet g r c = some fp → P fp

/-- The grid has exactly `rows` rows of `cols` cells each. -/
def GridDims (g : Grid) (rows cols : Nat) : Prop :=
  g.length = rows ∧ ∀ row ∈ g, row.length = cols

theorem gridAll_setNone {P : FramePoint → Prop} {g : Grid}
    (h : GridAll P g) (r c : Int) : GridAll P (gridSetNone g r c) := by
  intro r' c' fp hfp
  rcases gridGet_setNone_cases g r c r' c' with hc | hc
  · rw [hc] at hfp; cases hfp
  · rw [hc] at hfp; exact h r' c' fp hfp

theorem gridDims_setNone {g : Grid} {rows cols : Nat}
    (h : GridDims g rows cols) (r c : Int) :
    GridDims (gridSetNone g r c) rows cols := by
  constructor
  · rw [gridSetNone_length]; exact h.1
  · intro row hrow
    rcases gridSetNone_rows g r c row hrow with ⟨row0, hrow0, hlen⟩
    rw [hlen]; exact h.2 row0 hrow0

theorem GridAll_trackOnePoint {P : FramePoint → Prop} {g : Grid}
    (h : GridAll P g) (env : Env) (thr : Int) (prev : FramePoint)
    (proj : Vec3) : GridAll P (trackOnePoint env thr g prev proj).grid := by
  rcases trackOnePoint_grid env thr g prev proj with hg | ⟨r, c, hg⟩
  · rw [hg]; exact h
  · rw [hg]; exact gridAll_setNone h r c

theorem GridDims_trackOnePoint {g : Grid} {rows cols : Nat}
    (h : GridDims g rows cols) (env : Env) (thr : Int) (prev : FramePoint)
    (proj : Vec3) :
    GridDims (trackOnePoint env thr g prev proj).grid rows cols := by
  rcases trackOnePoint_grid env thr g prev proj with hg | ⟨r, c, hg⟩
  · rw [hg]; exact h
  · rw [hg]; exact gridDims_setNone h r c

/-- Both grid predicates survive the association loop. -/
theorem trackFramepoints_grid {P : FramePoint → Prop} {rows cols : Nat}
    (env : Env) (statusPrev : FrameStatus) (pts : List FramePoint)
    (wtr : Affine3) (g : Grid) (hall : GridAll P g)
    (hdims : GridDims g rows cols) :
    GridAll P (trackFramepoints env statusPrev pts wtr g).grid ∧
    GridDims (trackFramepoints env statusPrev pts wtr g).grid rows cols := by
  unfold trackFramepoints
  dsimp only
  refine foldl_stable _
    (fun (acc : TrackResult) =>
      GridAll P acc.grid ∧ GridDims acc.grid rows cols) ?_ _ _
    ⟨hall, hdims⟩
  intro acc pp ⟨ha, hd⟩
  unfold trackLoopStep
  rcases hc : (trackOnePoint env
      (if statusPrev = FrameStatus.Localizing
       then env.pixelDistanceTrackingThresholdMax
       else env.pixelDistanceTrackingThresholdMin) acc.grid pp.1 pp.2).committed
    with _ | cur <;> dsimp only <;> rw [hc] <;> dsimp only <;>
    exact ⟨GridAll_trackOnePoint ha env _ pp.1 pp.2,
           GridDims_trackOnePoint hd env _ pp.1 pp.2⟩

/-- After the sweep, every cell the loops visit is empty. -/
theorem addNew_cell_none (env : Env) (pose : Affine3) (g : Grid) :
    ∀ rc ∈ cellIndices 0 (env.rows : Int) 0 (env.cols : Int),
      gridGet (addNewFramepoints env pose g).grid rc.1 rc.2 = none := by
  unfold addNewFramepoints
  refine foldl_establish _
    (fun (rc : Int × Int) (acc : AddNewResult) =>
      gridGet acc.grid rc.1 rc.2 = none) ?_ ?_ _ _
  · intro acc rc rc' h
    unfold addNewStep
    rcases hc : gridGet acc.grid rc'.1 rc'.2 with _ | fp <;> dsimp only
    · exact h
    · rcases gridGet_setNone_cases acc.grid rc'.1 rc'.2 rc.1 rc.2 with h2 | h2
      · exact h2
      · rw [h2]; exact h
  · intro acc rc
    unfold addNewStep
    rcases hc : gridGet acc.grid rc.1 rc.2 with _ | fp <;> dsimp only
    · exact hc
    · exact gridGet_setNone_self acc.grid rc.1 rc.2

/-- The sweep preserves the grid dimensions. -/
theorem addNew_dims {rows cols : Nat} (env : Env) (pose : Affine3) (g : Grid)
    (hd : GridDims g rows cols) :
    GridDims (addNewFramepoints env pose g).grid rows cols := by
  unfold addNewFramepoints
  refine foldl_stable _
    (fun (acc : AddNewResult) => GridDims acc.grid rows cols) ?_ _ _ hd
  intro acc rc h
  unfold addNewStep
  rcases hc : gridGet acc.grid rc.1 rc.2 with _ | fp <;> dsimp only
  · exact h
  · exact gridDims_setNone h rc.1 rc.2

/-- The sweep only emits world-coordinate-refreshed grid points. -/
theorem addNew_newPoints {P Q : FramePoint → Prop} (env : Env)
    (pose : Affine3) (g : Grid) (hall : GridAll P g)
    (hq : ∀ (fp : FramePoint) (v : Vec3), P fp → Q (fp.setWorldCoords v)) :
    ∀ q ∈ (addNewFramepoints env pose g).newPoints, Q q := by
  unfold addNewFramepoints
  have := foldl_stable (addNewStep pose)
    (fun (acc : AddNewResult) =>
      GridAll P acc.grid ∧ ∀ q ∈ acc.newPoints, Q q) ?_
    (cellIndices 0 (env.rows : Int) 0 (env.cols : Int))
    { newPoints := [], grid := g } ⟨hall, by intro q h; cases h⟩
  · exact this.2
  · intro acc rc ⟨ha, hn⟩
    unfold addNewStep
    rcases hc : gridGet acc.grid rc.1 rc.2 with _ | fp <;> dsimp only
    · exact ⟨ha, hn⟩
    · refine ⟨gridAll_setNone ha rc.1 rc.2, ?_⟩
      intro q hq'
      rcases List.mem_append.mp hq' with hq' | hq'
      · exact hn q hq'
      · rcases List.mem_singleton.mp hq' with rfl
        exact hq fp _ (ha rc.1 rc.2 fp hc)

/-- A grid of the right dimensions whose indexed cells are all empty is
empty as a nested list. -/
theorem gridEmptyP_of (g : Grid) (rows cols : Nat)
    (hd : GridDims g rows cols)
    (h : ∀ rc : Int × Int, rc ∈ cellIndices 0 (rows : Int) 0 (cols : Int) →
      gridGet g rc.1 rc.2 = none) :
    gridEmptyP g := by
  intro row hrow cell hcell
  obtain ⟨r, hr, hre⟩ := List.mem_iff_getElem.mp hrow
  obtain ⟨c, hc, hce⟩ := List.mem_iff_getElem.mp hcell
  have h1 : r < rows := hd.1 ▸ hr
  have h2 : c < cols := (hd.2 row hrow) ▸ hc
  have hrc : (((r : Int), (c : Int)) : Int × Int) ∈
      cellIndices 0 (rows : Int) 0 (cols : Int) := by
    rw [mem_cellIndices]
    refine ⟨⟨?_, ?_⟩, ?_, ?_⟩ <;> omega
  have hg := h (↑r, ↑c) hrc
  unfold gridGet at hg
  rw [if_neg (by omega)] at hg
  have hrn : ((r : Int)).toNat = r := by omega
  have hcn : ((c : Int)).toNat = c := by omega
  rw [hrn, hcn] at hg
  rw [List.getD_eq_getElem?_getD g r [], List.getElem?_eq_getElem hr,
      Option.getD_some, hre] at hg
  rw [List.getD_eq_getElem?_getD row c none, List.getElem?_eq_getElem hc,
      Option.getD_some, hce] at hg
  exact hg

/-- The sweep leaves the whole (well-dimensioned) grid empty. -/
theorem gridEmptyP_addNew (env : Env) (pose : Affine3) (g : Grid)
    (hd : GridDims g env.rows env.cols) :
    gridEmptyP (addNewFramepoints env pose g).grid :=
  gridEmptyP_of _ env.rows env.cols (addNew_dims env pose g hd)
    (addNew_cell_none env pose g)

/-- The association phase preserves the grid dimensions. -/
theorem computeTrackRes_dims (env : Env) (s : TrackerState) (inp : FrameInput)
    (hd : GridDims inp.grid env.rows env.cols) :
    GridDims (computeTrackRes env s inp).grid env.rows env.cols := by
  unfold computeTrackRes
  rcases hpf : s.prevFrame with _ | pf <;> dsimp only
  · exact hd
  · exact (trackFramepoints_grid env s.statusPrev pf.points _ inp.grid
      (fun _ _ _ _ => trivial) hd).2

/-! ## Theorems: the grid is empty after compute (claim C7) -/

/-- Every Localizing-branch path ends in the sweep, leaving the grid
empty. -/
theorem computeLocalizing_grid_empty (env : Env) (s : TrackerState)
    (motion0 prevOdom : Affine3) (frame1 : Frame') (tr : TrackResult)
    (hd : GridDims tr.grid env.rows env.cols) :
    gridEmptyP (computeLocalizing env s motion0 prevOdom frame1 tr).grid := by
  unfold computeLocalizing
  rcases hpf : s.prevFrame with _ | pf <;> dsimp only <;>
    (repeat' split) <;>
    · simp only [finishCompute_grid]
      exact gridEmptyP_addNew env _ _ hd

/-- Every Tracking-branch path (with a previous frame) ends in the
explicit clear or the sweep. -/
theorem computeTracking_grid_empty (env : Env) (s : TrackerState)
    (prevOdom : Affine3) (frame1 : Frame') (tr : TrackResult) (pf : Frame')
    (hpf : s.prevFrame = some pf) (hd : GridDims tr.grid env.rows env.cols) :
    gridEmptyP (computeTracking env s prevOdom frame1 tr).grid := by
  unfold computeTracking
  rw [hpf]
  dsimp only
  split
  · exact gridEmptyP_clearGrid _
  · simp only [finishCompute_grid]
    exact gridEmptyP_addNew env _ _ hd

/-- Claim C7: on every execution path of `compute()` — association
consuming matched cells, the new-framepoint sweep claiming the rest, or
the track-loss early return clearing the grid explicitly — every cell of
the generator's (well-dimensioned) image grid is empty when `compute()`
returns.  A Tracking state always carries a previous frame in reachable
executions; the hypothesis records that invariant. -/
theorem grid_empty_after_compute (env : Env) (s : TrackerState)
    (inp : FrameInput) (hd : GridDims inp.grid env.rows env.cols)
    (hreach : s.status = FrameStatus.Tracking → s.prevFrame ≠ none) :
    gridEmptyP (compute env s inp).grid := by
  have hd' := computeTrackRes_dims env s inp hd
  cases hst : s.status
  · rw [compute_eq_localizing env s inp hst]
    exact computeLocalizing_grid_empty env _ _ _ _ _ hd'
  · rw [compute_eq_tracking env s inp hst]
    rcases hpf : s.prevFrame with _ | pf
    · exact absurd hpf (hreach hst)
    · exact computeTracking_grid_empty env _ _ _ _ pf
        (by rw [computeS0_prevFrame]; exact hpf) hd'

/-- Witness for claim C7's theorem on a concrete 1×2 grid run. -/
theorem grid_empty_after_compute_witness :
    gridEmptyP (compute envC5 stateC5 inpC5).grid := by
  refine grid_empty_after_compute envC5 stateC5 inpC5 ⟨rfl, ?_⟩ ?_
  · intro row hrow
    rw [List.mem_singleton.mp hrow]
    rfl
  · intro _
    simp [stateC5]

/-! ## Theorems: the track-length invariant (claim C6) -/

@[simp] theorem setWorldCoords_previous (p : FramePoint) (v : Vec3) :
    (p.setWorldCoords v).previous = p.previous := rfl

@[simp] theorem setWorldCoords_trackLength (p : FramePoint) (v : Vec3) :
    (p.setWorldCoords v).trackLength = p.trackLength := rfl

@[simp] theorem setLandmark_previous (p : FramePoint) (lm : Option Landmark) :
    (p.setLandmark lm).previous = p.previous := rfl

@[simp] theorem setLandmark_trackLength (p : FramePoint) (lm : Option Landmark) :
    (p.setLandmark lm).trackLength = p.trackLength := rfl

@[simp] theorem setPrevious_previous (p q : FramePoint) :
    (p.setPrevious q).previous = some q := rfl

@[simp] theorem setPrevious_trackLength (p q : FramePoint) :
    (p.setPrevious q).trackLength = q.trackLength + 1 := rfl

/-- A generator-fresh framepoint: no predecessor, unit track length. -/
def fpFresh (p : FramePoint) : Prop :=
  p.previous = none ∧ p.trackLength = 1

theorem fpInvariant_setPrevious (p q : FramePoint) :
    fpInvariant (p.setPrevious q) := by
  unfold fpInvariant
  simp

theorem fpInvariant_setWorldCoords {p : FramePoint} (v : Vec3)
    (h : fpInvariant p) : fpInvariant (p.setWorldCoords v) := by
  unfold fpInvariant at *
  simpa using h

theorem fpInvariant_setLandmark {p : FramePoint} (lm : Option Landmark)
    (h : fpInvariant p) : fpInvariant (p.setLandmark lm) := by
  unfold fpInvariant at *
  simpa using h

theorem fpInvariant_of_fresh {p : FramePoint} (h : fpFresh p) :
    fpInvariant p := by
  unfold fpInvariant
  rw [h.1]
  exact h.2

/-- A committed point of the Stage-2 tail extends the previous point's
track. -/
theorem trackOnePointStage2_committed (env : Env) (thr : Int) (g : Grid)
    (prev : FramePoint) (rp cp rPrev cPrev : Int) (s1 : Option BestMatch)
    (cur : FramePoint)
    (h : (trackOnePointStage2 env thr g prev rp cp rPrev cPrev s1).committed =
      some cur) : ∃ fp : FramePoint, cur = fp.setPrevious prev := by
  unfold trackOnePointStage2 at h
  dsimp only at h
  rcases hs2 : scanBest env g prev.descriptor rp cp thr
    (inStage1Rect env rp cp) (stage2Cells env thr rp cp) with _ | b <;>
    rw [hs2] at h <;> dsimp only at h
  · cases h
  · split at h
    · exact ⟨b.point, (Option.some.inj h).symm⟩
    · cases h

/-- A committed point of the association extends the previous point's
track. -/
theorem trackOnePoint_committed (env : Env) (thr : Int) (g : Grid)
    (prev : FramePoint) (proj : Vec3) (cur : FramePoint)
    (h : (trackOnePoint env thr g prev proj).committed = some cur) :
    ∃ fp : FramePoint, cur = fp.setPrevious prev := by
  unfold trackOnePoint at h
  dsimp only at h
  rcases hs1 : scanBest env g prev.descriptor (round proj.y) (round proj.x)
    thr (fun _ => false) (stage1Cells env (round proj.y) (round proj.x))
    with _ | b <;> rw [hs1] at h <;> dsimp only at h
  · exact trackOnePointStage2_committed env thr g prev _ _ _ _ _ cur h
  · split at h
    · exact ⟨b.point, (Option.some.inj h).symm⟩
    · exact trackOnePointStage2_committed env thr g prev _ _ _ _ _ cur h

/-- Every tracked point emitted by the association loop is a committed
`setPrevious` link. -/
theorem trackFramepoints_points_commit (env : Env) (statusPrev : FrameStatus)
    (pts : List FramePoint) (wtr : Affine3) (g : Grid) :
    ∀ q ∈ (trackFramepoints env statusPrev pts wtr g).points,
      ∃ fp prev : FramePoint, q = fp.setPrevious prev := by
  unfold trackFramepoints
  dsimp only
  refine foldl_stable _
    (fun (acc : TrackResult) => ∀ q ∈ acc.points,
      ∃ fp prev : FramePoint, q = fp.setPrevious prev) ?_ _ _ ?_
  · intro acc pp h
    unfold trackLoopStep
    rcases hc : (trackOnePoint env
        (if statusPrev = FrameStatus.Localizing
         then env.pixelDistanceTrackingThresholdMax
         else env.pixelDistanceTrackingThresholdMin) acc.grid pp.1 pp.2).committed
      with _ | cur <;> dsimp only <;> rw [hc] <;> dsimp only
    · exact h
    · intro q hq
      rcases List.mem_append.mp hq with hq | hq
      · exact h q hq
      · rcases List.mem_singleton.mp hq with rfl
        rcases trackOnePoint_committed env _ acc.grid pp.1 pp.2 q hc
          with ⟨fp, rfl⟩
        exact ⟨fp, pp.1, rfl⟩
  · intro q hq
    cases hq

/-- Every tracked point emitted by the association loop satisfies the
track-length invariant. -/
theorem trackFramepoints_points_inv (env : Env) (statusPrev : FrameStatus)
    (pts : List FramePoint) (wtr : Affine3) (g : Grid) :
    ∀ q ∈ (trackFramepoints env statusPrev pts wtr g).points, fpInvariant q := by
  intro q hq
  rcases trackFramepoints_points_commit env statusPrev pts wtr g q hq
    with ⟨fp, prev, rfl⟩
  exact fpInvariant_setPrevious fp prev

/-- Pruning keeps only points of the input vector. -/
theorem pruneFramepoints_mem (errors : Nat → ℚ) (inliers : Nat → Bool)
    (pts : List FramePoint) :
    ∀ q ∈ pruneFramepoints errors inliers pts, q ∈ pts := by
  intro q hq
  unfold pruneFramepoints at hq
  rw [pruneGo_eq] at hq
  have hs : ((List.enumFrom 0 pts).filter
      (fun ip => pruneKeep errors inliers ip.1 ip.2)).Sublist
      (List.enumFrom 0 pts) := List.filter_sublist _
  have := (hs.map Prod.snd).subset hq
  rwa [List.enumFrom_map_snd] at this

/-- Every recovered point extends its lost point's track. -/
theorem recoverPoints_inv (env : Env) (pose : Affine3)
    (lost : List FramePoint) :
    ∀ q ∈ recoverPoints env pose lost, fpInvariant q := by
  intro q hq
  unfold recoverPoints at hq
  rcases List.mem_filterMap.mp hq with ⟨p, _, hmap⟩
  rcases Option.map_eq_some'.mp hmap with ⟨cand, _, rfl⟩
  exact fpInvariant_setPrevious cand p

/-- `updatePoints` preserves the invariant. -/
theorem updatePoints_inv (pose : Affine3) (pts : List FramePoint)
    (h : ∀ p ∈ pts, fpInvariant p) :
    ∀ q ∈ updatePoints pose pts, fpInvariant q := by
  intro q hq
  rcases List.mem_map.mp hq with ⟨p, hp, rfl⟩
  exact fpInvariant_setWorldCoords _ (h p hp)

/-- `_updateLandmarks` preserves the invariant. -/
theorem updateLandmarks_points_inv (env : Env) (store : List Landmark)
    (nextId : Nat) (pose : Affine3) (minLen : Nat) (pts : List FramePoint)
    (h : ∀ p ∈ pts, fpInvariant p) :
    ∀ q ∈ (updateLandmarks env store nextId pose minLen pts).points,
      fpInvariant q := by
  unfold updateLandmarks
  suffices haux : ∀ (l : List FramePoint) (acc : UpdateLMState),
      (∀ p ∈ l, fpInvariant p) → (∀ q ∈ acc.points, fpInvariant q) →
      ∀ q ∈ (l.foldl (updateLandmarksStep env pose minLen) acc).points,
        fpInvariant q by
    exact haux pts _ h (by intro q hq; cases hq)
  intro l
  induction l with
  | nil => intro acc _ hacc; exact hacc
  | cons p rest ih =>
    intro acc hl hacc
    refine ih _ (fun p' hp' => hl p' (List.mem_cons_of_mem p hp')) ?_
    have hp := hl p (List.mem_cons_self p rest)
    unfold updateLandmarksStep
    dsimp only
    split
    · intro q hq
      rcases List.mem_append.mp hq with hq | hq
      · exact hacc q hq
      · rcases List.mem_singleton.mp hq with rfl
        exact fpInvariant_setWorldCoords _ hp
    · split <;>
      · intro q hq
        rcases List.mem_append.mp hq with hq | hq
        · exact hacc q hq
        · rcases List.mem_singleton.mp hq with rfl
          exact fpInvariant_setLandmark _ (fpInvariant_setWorldCoords _ hp)

/-- `GridAll` survives the association loop. -/
theorem trackFramepoints_grid_all {P : FramePoint → Prop} (env : Env)
    (statusPrev : FrameStatus) (pts : List FramePoint) (wtr : Affine3)
    (g : Grid) (hall : GridAll P g) :
    GridAll P (trackFramepoints env statusPrev pts wtr g).grid := by
  unfold trackFramepoints
  dsimp only
  refine foldl_stable _
    (fun (acc : TrackResult) => GridAll P acc.grid) ?_ _ _ hall
  intro acc pp ha
  unfold trackLoopStep
  rcases hc : (trackOnePoint env
      (if statusPrev = FrameStatus.Localizing
       then env.pixelDistanceTrackingThresholdMax
       else env.pixelDistanceTrackingThresholdMin) acc.grid pp.1 pp.2).committed
    with _ | cur <;> dsimp only <;> rw [hc] <;> dsimp only <;>
    exact GridAll_trackOnePoint ha env _ pp.1 pp.2

/-- Every Localizing-branch path produces only invariant-satisfying
points: the tracked points survive metadata updates, and the appended new
points are fresh. -/
theorem computeLocalizing_points_inv (env : Env) (s : TrackerState)
    (motion0 prevOdom : Affine3) (frame1 : Frame') (tr : TrackResult)
    (hpts : ∀ q ∈ frame1.points, fpInvariant q)
    (hgall : GridAll fpFresh tr.grid) :
    ∀ q ∈ (computeLocalizing env s motion0 prevOdom frame1 tr).frame.points,
      fpInvariant q := by
  unfold computeLocalizing
  rcases hpf : s.prevFrame with _ | pf <;> dsimp only <;> (repeat' split) <;>
    · simp only [finishCompute_frame_points]
      intro q hq
      rcases List.mem_append.mp hq with hq | hq
      · first
        | exact updateLandmarks_points_inv env _ _ _ _ _ hpts q hq
        | exact updatePoints_inv _ _ hpts q hq
      · exact addNew_newPoints env _ _ hgall
          (fun fp v hf => fpInvariant_setWorldCoords v (fpInvariant_of_fresh hf))
          q hq

/-- Every Tracking-branch path (with a previous frame) produces only
invariant-satisfying points: the early return releases all points; the
normal path keeps a pruned subset of tracked points, recovered
track-extensions, and fresh new points. -/
theorem computeTracking_points_inv (env : Env) (s : TrackerState)
    (prevOdom : Affine3) (frame1 : Frame') (tr : TrackResult) (pf : Frame')
    (hpf : s.prevFrame = some pf)
    (htr : ∀ q ∈ tr.points, fpInvariant q)
    (hgall : GridAll fpFresh tr.grid) :
    ∀ q ∈ (computeTracking env s prevOdom frame1 tr).frame.points,
      fpInvariant q := by
  unfold computeTracking
  rw [hpf]
  dsimp only
  split
  · intro q hq
    exact absurd hq (List.not_mem_nil q)
  · simp only [finishCompute_frame_points]
    intro q hq
    rcases List.mem_append.mp hq with hq | hq
    · refine updateLandmarks_points_inv env _ _ _ _ _ ?_ q hq
      intro p hp
      rcases List.mem_append.mp hp with hp | hp
      · exact htr p (pruneFramepoints_mem _ _ _ p hp)
      · exact recoverPoints_inv env _ _ p hp
    · exact addNew_newPoints env _ _ hgall
        (fun fp v hf => fpInvariant_setWorldCoords v (fpInvariant_of_fresh hf))
        q hq

/-- Claim C6: after `compute()`, every framepoint of the current frame
with a non-null previous link has `track_length = previous.track_length
+ 1`, and every framepoint with a null previous link has track length 1
(the property `fpInvariant`); association commits establish it by linking
the matched current point to the previous point as its predecessor.  The
hypotheses record the generator contract (grid cells hold fresh points)
and the reachable-state invariant (a Tracking state has a previous
frame). -/
theorem track_length_invariant (env : Env) (s : TrackerState)
    (inp : FrameInput) (hfresh : GridAll fpFresh inp.grid)
    (hreach : s.status = FrameStatus.Tracking → s.prevFrame ≠ none) :
    (∀ p ∈ (compute env s inp).frame.points, fpInvariant p)
    ∧ (∀ q ∈ (computeTrackRes env s inp).points,
        ∃ fp prev : FramePoint, q = fp.setPrevious prev) := by
  have htr : ∀ q ∈ (computeTrackRes env s inp).points, fpInvariant q := by
    unfold computeTrackRes
    rcases hpf : s.prevFrame with _ | pf <;> dsimp only
    · intro q hq; cases hq
    · exact trackFramepoints_points_inv env _ _ _ _
  have hgall : GridAll fpFresh (computeTrackRes env s inp).grid := by
    unfold computeTrackRes
    rcases hpf : s.prevFrame with _ | pf <;> dsimp only
    · exact hfresh
    · exact trackFramepoints_grid_all env _ _ _ _ hfresh
  have hcommit : ∀ q ∈ (computeTrackRes env s inp).points,
      ∃ fp prev : FramePoint, q = fp.setPrevious prev := by
    unfold computeTrackRes
    rcases hpf : s.prevFrame with _ | pf <;> dsimp only
    · intro q hq; cases hq
    · exact trackFramepoints_points_commit env _ _ _ _
  refine ⟨?_, hcommit⟩
  cases hst : s.status
  · rw [compute_eq_localizing env s inp hst]
    exact computeLocalizing_points_inv env _ _ _ _ _ htr hgall
  · rw [compute_eq_tracking env s inp hst]
    rcases hpf : s.prevFrame with _ | pf
    · exact absurd hpf (hreach hst)
    · exact computeTracking_points_inv env _ _ _ _ pf
        (by rw [computeS0_prevFrame]; exact hpf) htr hgall

/-- `GridAll` from a rowwise description of a concrete grid. -/
theorem GridAll_ofList {P : FramePoint → Prop} (g : Grid)
    (h : ∀ row ∈ g, ∀ cell ∈ row, ∀ fp : FramePoint, cell = some fp → P fp) :
    GridAll P g := by
  intro r c fp hfp
  unfold gridGet at hfp
  split at hfp
  · cases hfp
  · by_cases hr : r.toNat < g.length
    · by_cases hc : c.toNat < (g.getD r.toNat []).length
      · have hrow : g.getD r.toNat [] ∈ g := by
          rw [List.getD_eq_getElem?_getD g r.toNat [],
              List.getElem?_eq_getElem hr]
          exact List.getElem_mem hr
        have hcell : (g.getD r.toNat []).getD c.toNat none ∈
            g.getD r.toNat [] := by
          rw [List.getD_eq_getElem?_getD _ c.toNat none,
              List.getElem?_eq_getElem hc]
          exact List.getElem_mem hc
        exact h _ hrow _ hcell fp hfp
      · rw [List.getD_eq_getElem?_getD _ c.toNat none,
            List.getElem?_eq_none (Nat.le_of_not_lt hc)] at hfp
        cases hfp
    · have hnil : g.getD r.toNat [] = [] := by
        rw [List.getD_eq_getElem?_getD g r.toNat [],
            List.getElem?_eq_none (Nat.le_of_not_lt hr)]
        rfl
      rw [hnil] at hfp
      cases hfp

/-- Witness for claim C6's theorem on the concrete 1×2 grid run. -/
theorem track_length_invariant_witness :
    (compute envC5 stateC5 inpC5).frame.points.all
      (fun p => decide (fpInvariant p)) = true := by
  rw [List.all_eq_true]
  have hmain : ∀ p ∈ (compute envC5 stateC5 inpC5).frame.points,
      fpInvariant p := by
    refine (track_length_invariant envC5 stateC5 inpC5 ?_ ?_).1
    · refine GridAll_ofList _ ?_
      intro row hrow cell hcell fp hfp
      rw [List.mem_singleton.mp hrow] at hcell
      rcases List.mem_cons.mp hcell with rfl | hcell
      · cases Option.some.inj hfp
        exact ⟨rfl, rfl⟩
      · rcases List.mem_singleton.mp hcell with rfl
        cases Option.some.inj hfp
        exact ⟨rfl, rfl⟩
    · intro _
      simp [stateC5]
  intro p hp
  exact decide_eq_true (hmain p hp)

/-! ## Theorems: determinism and the strict tie-break (claim C10) -/

/-- A cell qualifies for the scan: not skipped, occupied, and its
descriptor distance is below the matching threshold. -/
def scanQual (env : Env) (g : Grid) (desc : Nat) (skip : Int × Int → Bool)
    (rc : Int × Int) : Prop :=
  skip rc = false ∧ ∃ fp : FramePoint, gridGet g rc.1 rc.2 = some fp ∧
    env.descDist desc fp.descriptor < env.matchingDistanceTrackingThreshold

/-- Invariant of the scan fold over the processed prefix `done`: with no
winner every qualifying processed cell is at or beyond the threshold; with
a winner, the winner is a qualifying processed cell of minimal pixel
distance, strictly smaller than every qualifying cell before it. -/
def ScanInv (env : Env) (g : Grid) (desc : Nat) (rp cp : Int) (thr : Int)
    (skip : Int × Int → Bool) (done : List (Int × Int)) :
    Option BestMatch → Prop
  | none => ∀ rc ∈ done, scanQual env g desc skip rc →
      thr ≤ pixelDist rp cp rc.1 rc.2
  | some b =>
      gridGet g b.row b.col = some b.point
      ∧ skip (b.row, b.col) = false
      ∧ env.descDist desc b.point.descriptor <
          env.matchingDistanceTrackingThreshold
      ∧ b.dist = pixelDist rp cp b.row b.col
      ∧ b.dist < thr
      ∧ (∀ rc ∈ done, scanQual env g desc skip rc →
          b.dist ≤ pixelDist rp cp rc.1 rc.2)
      ∧ ∃ l1 l2, done = l1 ++ (b.row, b.col) :: l2 ∧
          ∀ rc ∈ l1, scanQual env g desc skip rc →
            b.dist < pixelDist rp cp rc.1 rc.2

/-- Extending the processed prefix by a cell that does not beat the
current state preserves the invariant. -/
theorem scanInv_extend (env : Env) (g : Grid) (desc : Nat) (rp cp : Int)
    (thr : Int) (skip : Int × Int → Bool) (done : List (Int × Int))
    (res : Option BestMatch) (rc' : Int × Int)
    (h : ScanInv env g desc rp cp thr skip done res)
    (hge : scanQual env g desc skip rc' →
      bestDist thr res ≤ pixelDist rp cp rc'.1 rc'.2) :
    ScanInv env g desc rp cp thr skip (done ++ [rc']) res := by
  rcases res with _ | b
  · intro rc hrc hq
    rcases List.mem_append.mp hrc with hrc | hrc
    · exact h rc hrc hq
    · rcases List.mem_singleton.mp hrc with rfl
      exact hge hq
  · obtain ⟨h1, h2, h3, h4, h5, h6, l1, l2, hsplit, h7⟩ := h
    refine ⟨h1, h2, h3, h4, h5, ?_, l1, l2 ++ [rc'], ?_, h7⟩
    · intro rc hrc hq
      rcases List.mem_append.mp hrc with hrc | hrc
      · exact h6 rc hrc hq
      · rcases List.mem_singleton.mp hrc with rfl
        exact hge hq
    · rw [hsplit]
      simp

@[simp] theorem bestDist_none (thr : Int) : bestDist thr none = thr := rfl

@[simp] theorem bestDist_some (thr : Int) (b : BestMatch) :
    bestDist thr (some b) = b.dist := rfl

/-- One scan step preserves the invariant. -/
theorem scanStep_inv (env : Env) (g : Grid) (desc : Nat) (rp cp : Int)
    (thr : Int) (skip : Int × Int → Bool) (done : List (Int × Int))
    (res : Option BestMatch) (rc' : Int × Int)
    (h : ScanInv env g desc rp cp thr skip done res) :
    ScanInv env g desc rp cp thr skip (done ++ [rc'])
      (scanStep env g desc rp cp thr skip res rc') := by
  unfold scanStep
  rcases hg : gridGet g rc'.1 rc'.2 with _ | fp <;> dsimp only
  · refine scanInv_extend env g desc rp cp thr skip done res rc' h ?_
    rintro ⟨_, fp, hfp, _⟩
    rw [hg] at hfp
    cases hfp
  · by_cases hskip : skip rc' = true
    · rw [if_pos hskip]
      refine scanInv_extend env g desc rp cp thr skip done res rc' h ?_
      rintro ⟨hns, _⟩
      rw [hskip] at hns
      cases hns
    · rw [if_neg hskip]
      have hskipF : skip rc' = false := Bool.eq_false_iff.mpr hskip
      by_cases hcond : pixelDist rp cp rc'.1 rc'.2 < bestDist thr res ∧
          env.descDist desc fp.descriptor <
            env.matchingDistanceTrackingThreshold
      · rw [if_pos hcond]
        obtain ⟨hpd, hmd⟩ := hcond
        rcases res with _ | b
        · rw [bestDist_none] at hpd
          refine ⟨hg, hskipF, hmd, rfl, hpd, ?_, done, [], by simp, ?_⟩
          · intro rc hrc hq
            rcases List.mem_append.mp hrc with hrc | hrc
            · have := h rc hrc hq
              dsimp only
              omega
            · rcases List.mem_singleton.mp hrc with rfl
              dsimp only
              omega
          · intro rc hrc hq
            have := h rc hrc hq
            dsimp only
            omega
        · rw [bestDist_some] at hpd
          obtain ⟨h1, h2, h3, h4, h5, h6, l1, l2, hsplit, h7⟩ := h
          refine ⟨hg, hskipF, hmd, rfl, by dsimp only; omega, ?_, done, [],
            by simp, ?_⟩
          · intro rc hrc hq
            rcases List.mem_append.mp hrc with hrc | hrc
            · have := h6 rc hrc hq
              dsimp only
              omega
            · rcases List.mem_singleton.mp hrc with rfl
              dsimp only
              omega
          · intro rc hrc hq
            have := h6 rc hrc hq
            dsimp only
            omega
      · rw [if_neg hcond]
        refine scanInv_extend env g desc rp cp thr skip done res rc' h ?_
        rintro ⟨_, fp', hfp', hmd⟩
        rw [hg] at hfp'
        cases Option.some.inj hfp'
        by_contra hlt2
        push_neg at hlt2
        exact hcond ⟨hlt2, hmd⟩

/-- The scan fold preserves the invariant over any cell list. -/
theorem scanBest_fold_inv (env : Env) (g : Grid) (desc : Nat) (rp cp : Int)
    (thr : Int) (skip : Int × Int → Bool) :
    ∀ (cells done : List (Int × Int)) (res : Option BestMatch),
      ScanInv env g desc rp cp thr skip done res →
      ScanInv env g desc rp cp thr skip (done ++ cells)
        (cells.foldl (scanStep env g desc rp cp thr skip) res) := by
  intro cells
  induction cells with
  | nil => intro done res h; simpa using h
  | cons rc' rest ih =>
    intro done res h
    have hstep := scanStep_inv env g desc rp cp thr skip done res rc' h
    have := ih (done ++ [rc']) _ hstep
    simpa using this

/-- The result of the full scan satisfies the invariant over all cells. -/
theorem scanBest_spec (env : Env) (g : Grid) (desc : Nat) (rp cp : Int)
    (thr : Int) (skip : Int × Int → Bool) (cells : List (Int × Int)) :
    ScanInv env g desc rp cp thr skip cells
      (scanBest env g desc rp cp thr skip cells) := by
  have := scanBest_fold_inv env g desc rp cp thr skip cells [] none
    (by intro rc hrc _; cases hrc)
  simpa [scanBest] using this

/-- Claim C10: `compute()` is a pure function of the environment, prior
state and inputs — two runs of the same frame sequence from equal fresh
states produce identical per-frame poses, inlier counts and tracked
landmark counts — and the association's exhaustive scans use strict
less-than on the Manhattan pixel distance over the row-major cell order,
so the scan winner is a minimal-distance qualifying cell that strictly
beats every qualifying cell scanned before it (the first candidate at the
minimal distance wins). -/
theorem deterministic_tracking :
    (∀ (env : Env) (s1 s2 : TrackerState) (inputs : List FrameInput),
      s1 = s2 → runTracker env s1 inputs = runTracker env s2 inputs)
    ∧ (∀ (env : Env) (g : Grid) (desc : Nat) (rp cp thr : Int)
        (skip : Int × Int → Bool) (cells : List (Int × Int)) (b : BestMatch),
        scanBest env g desc rp cp thr skip cells = some b →
          (scanQual env g desc skip (b.row, b.col)
           ∧ b.dist = pixelDist rp cp b.row b.col
           ∧ b.dist < thr)
          ∧ (∀ rc ∈ cells, scanQual env g desc skip rc →
              b.dist ≤ pixelDist rp cp rc.1 rc.2)
          ∧ ∃ l1 l2, cells = l1 ++ (b.row, b.col) :: l2 ∧
              ∀ rc ∈ l1, scanQual env g desc skip rc →
                b.dist < pixelDist rp cp rc.1 rc.2) := by
  constructor
  · intro env s1 s2 inputs h
    rw [h]
  · intro env g desc rp cp thr skip cells b hb
    have hinv := scanBest_spec env g desc rp cp thr skip cells
    rw [hb] at hinv
    obtain ⟨h1, h2, h3, h4, h5, h6, l1, l2, hsplit, h7⟩ := hinv
    exact ⟨⟨⟨h2, b.point, h1, h3⟩, h4, h5⟩, h6, l1, l2, hsplit, h7⟩

/-- Witness for claim C10's theorem: the determinism conjunct at a
concrete run, and the scan conjunct at the one-cell grid. -/
theorem deterministic_tracking_witness :
    runTracker envC5 stateC5 [inpC5] = runTracker envC5 stateC5 [inpC5]
    ∧ scanQual envC3 [[some gridPtC3]] 0 (fun _ => false) (0, 0) := by
  constructor
  · exact deterministic_tracking.1 envC5 stateC5 stateC5 [inpC5] rfl
  · exact (deterministic_tracking.2 envC3 [[some gridPtC3]] 0 0 0 4
      (fun _ => false) (stage1Cells envC3 0 0) ⟨0, 0, 0, gridPtC3⟩ rfl).1.1

end ProSlam
